import Mathlib

/-
  Shallow embedding of the derived-analytics aggregation engine of the
  team-forge-auth repository, and proofs about it.

  The four report builders embedded here are:
  * fetchTimeTrackingData   (TimeTrackingSummary, the Summary report)
  * fetchProjectAnalytics   (ProjectTimeAnalytics, the Project report)
  * fetchUserAnalytics      (UserTimeAnalytics, the User report)
  * fetchWorkPatternData    (WorkPatternAnalytics, the Work-Pattern report)

  Modelling conventions:
  * Timestamps are epoch milliseconds (Int).  The runtime timezone is taken
    to be UTC, so Date#getHours() is the UTC hour and the
    toISOString().split('T')[0] date key is modelled as the UTC day index
    (epoch milliseconds divided by 86400000, floored).
  * JS numbers are idealized as exact rationals.  Where a JS computation can
    produce NaN or Infinity (the unguarded consistency calculator), a JsNum
    type over the reals mirrors the IEEE special values.
  * A JS Map is modelled as an insertion-ordered association list (alSet
    updates an existing key in place and appends a new key at the end,
    exactly like Map#set); a JS Set of strings is an insertion-ordered
    duplicate-free list.  Array#sort is modelled as a stable sort with the
    comparator translated to a boolean "stays-before" relation; a NaN
    comparator result is treated as 0, as the ECMAScript SortCompare does.
  * JS truthiness on nullable string foreign keys (`if (log.user_id)`) is
    modelled by truthyStr: null and the empty string are falsy.  Truthiness
    on optional numbers (`log.tasks?.estimate_hours || 0`) treats null and
    0 as falsy.
-/

namespace TeamForge

/-- JS truthiness for a nullable string: `null` and `""` are falsy. -/
def truthyStr : Option String → Option String
  | some s => if s = "" then none else some s
  | none => none

/-- `s || dflt` for a nullable string (empty string falls back too). -/
def strOr (s : Option String) (dflt : String) : String :=
  match s with
  | some s => if s = "" then dflt else s
  | none => dflt

/-- `q || 0`-style fallback for a nullable number: `null` and `0` are falsy. -/
def qOr (o : Option ℚ) (dflt : ℚ) : ℚ :=
  match o with
  | some q => if q = 0 then dflt else q
  | none => dflt

/-- `cur + e` guarded by `if (e)` truthiness (skipped for null and 0). -/
def addTruthy (cur : ℚ) (o : Option ℚ) : ℚ :=
  match o with
  | some e => if e = 0 then cur else cur + e
  | none => cur

/-- UTC hour of an epoch-millisecond timestamp (Date#getHours under UTC). -/
def hourOfMs (t : Int) : Int := (Int.fdiv t 3600000) % 24

/-- UTC day index of an epoch-millisecond timestamp
(the date part of toISOString, as a day count since the epoch). -/
def dayOfMs (t : Int) : Int := Int.fdiv t 86400000

/-- Day index of the week start (date minus getDay(); day 0 was a Thursday,
so getDay() of day index d is (d + 4) mod 7). -/
def weekKeyOfMs (t : Int) : Int := dayOfMs t - (dayOfMs t + 4) % 7

/-- `Math.round(q * 100) / 100`: round to 2 decimals, half away from zero
upward (Math.round is floor(x + 1/2)). -/
def jsRound2 (q : ℚ) : ℚ := ((⌊q * 100 + 1/2⌋ : ℤ) : ℚ) / 100

section AList

variable {κ V : Type} [DecidableEq κ]

/-- Lookup in an insertion-ordered association list (JS Map#get). -/
def alGet (m : List (κ × V)) (k : κ) : Option V :=
  (m.find? (fun p => p.1 = k)).map (·.2)

/-- JS Map#set: update an existing key in place, else append at the end. -/
def alSet : List (κ × V) → κ → V → List (κ × V)
  | [], k, v => [(k, v)]
  | p :: rest, k, v => if p.1 = k then (k, v) :: rest else p :: alSet rest k v

/-- Mutate the value at a key if present, else do nothing
(the `const x = map.get(k); if (x) x.f = ...` pattern). -/
def alAdjust : List (κ × V) → κ → (V → V) → List (κ × V)
  | [], _, _ => []
  | p :: rest, k, f => if p.1 = k then (k, f p.2) :: rest else p :: alAdjust rest k f

/-- The `if (!map.has(k)) map.set(k, dflt); map.get(k)!.mutate()` pattern. -/
def alUpd (m : List (κ × V)) (k : κ) (dflt : V) (f : V → V) : List (κ × V) :=
  alSet m k (f ((alGet m k).getD dflt))

/-- Keys of an association list, in insertion order. -/
def alKeys (m : List (κ × V)) : List κ := m.map (·.1)

end AList

/-- JS Set#add for a set of strings (insertion-ordered, duplicate-free). -/
def setAdd (s : List String) (x : String) : List String :=
  if x ∈ s then s else s ++ [x]

/-- Insert x after every already-placed element y with le y x
(stable insertion of a later element into the sorted earlier ones). -/
def insertSorted {α : Type} (le : α → α → Bool) (x : α) : List α → List α
  | [] => [x]
  | y :: ys => if le y x then y :: insertSorted le x ys else x :: y :: ys

/-- Stable sort modelling Array#sort with comparator cmp, where
`le a b` means cmp(a,b) ≤ 0 (or the comparator returned NaN). -/
def jsSortBy {α : Type} (le : α → α → Bool) (l : List α) : List α :=
  l.foldl (fun acc x => insertSorted le x acc) []

/-- Joined users(name) row on a work log. -/
structure UsersJoin where
  name : String
deriving DecidableEq, Repr

/-- Joined projects(name) row on a work log. -/
structure ProjectsJoin where
  name : String
deriving DecidableEq, Repr

/-- Joined tasks(name, status, estimate_hours, assigned_user_id) row. -/
structure TasksJoin where
  name : String
  status : String
  estimate_hours : Option ℚ
  assigned_user_id : Option String
deriving DecidableEq, Repr

/-- A work_logs row as returned by the analytics queries. -/
structure WorkLog where
  id : String
  user_id : Option String
  project_id : Option String
  task_id : Option String
  start_time : Int
  end_time : Int
  users : Option UsersJoin
  projects : Option ProjectsJoin
  tasks : Option TasksJoin
deriving DecidableEq, Repr

/-- A tasks row (the full task table). -/
structure Task where
  id : String
  project_id : String
  name : String
  status : String
  estimate_hours : Option ℚ
  assigned_user_id : Option String
deriving DecidableEq, Repr

/-- A projects row. -/
structure Project where
  id : String
  name : String
  type : String
  status : Option String
  deadline : Option Int
deriving DecidableEq, Repr

/-- A users row. -/
structure User where
  id : String
  name : String
  email : String
  role : Option String
  specialization : Option String
deriving DecidableEq, Repr

/-- `(end.getTime() - start.getTime()) / (1000 * 60 * 60)`. -/
def hoursOf (log : WorkLog) : ℚ :=
  ((log.end_time - log.start_time : Int) : ℚ) / (1000 * 60 * 60)

/-- `log.tasks?.status === 'Completed'`. -/
def logTaskCompleted (log : WorkLog) : Bool :=
  decide (log.tasks.map (·.status) = some "Completed")

/-- The selected window: windowStart and windowNow. -/
structure Window where
  startDate : Int
  now : Int
deriving DecidableEq, Repr

/-- The window filter applied by every analytics query:
`.gte('start_time', startDate).lte('end_time', now)`. -/
def windowFilter (w : Window) (workLogs : List WorkLog) : List WorkLog :=
  workLogs.filter (fun log =>
    decide (w.startDate ≤ log.start_time) && decide (log.end_time ≤ w.now))

/-- A generic JS Map bucket update step: when the guard holds, ensure the
key has an entry (defaulting with dflt) and mutate it with upd. -/
def bucketStep {L κ V : Type} [DecidableEq κ] (guard : L → Bool) (key : L → κ)
    (dflt : L → V) (upd : L → V → V) (m : List (κ × V)) (l : L) : List (κ × V) :=
  if guard l then alUpd m (key l) (dflt l) (upd l) else m

/-- Fold a log list through a bucketStep starting from the empty map. -/
def bucketFold {L κ V : Type} [DecidableEq κ] (guard : L → Bool) (key : L → κ)
    (dflt : L → V) (upd : L → V → V) (logs : List L) : List (κ × V) :=
  logs.foldl (bucketStep guard key dflt upd) []

/-- Summary report: a dailyMap accumulator entry. -/
structure DayAcc where
  hours : ℚ
  users : List String
  projects : List String
deriving DecidableEq, Repr

/-- Summary report: a row of the daily breakdown. -/
structure DailyData where
  date : Int
  hours : ℚ
  users : Nat
  projects : Nat
deriving DecidableEq, Repr

/-- Summary report: a projectMap accumulator entry. -/
structure SProjAcc where
  hours : ℚ
  users : List String
  tasks : List String
  completedTasks : Nat
deriving DecidableEq, Repr

/-- Summary report: a row of the project time summary. -/
structure ProjectSummary where
  projectName : String
  totalHours : ℚ
  userCount : Nat
  taskCount : Nat
  completionRate : ℚ
deriving DecidableEq, Repr

/-- The Summary report emitted by fetchTimeTrackingData (peakDay is none
when the daily array is empty, where the source shows ''). -/
structure SummaryReport where
  dailyData : List DailyData
  totalHours : ℚ
  avgHoursPerDay : ℚ
  peakDay : Option Int
  projectSummary : List ProjectSummary
deriving DecidableEq, Repr

/-- Per-log mutation of a dailyMap entry in fetchTimeTrackingData. -/
def summaryDayUpd (log : WorkLog) (dayData : DayAcc) : DayAcc :=
  let dayData := { dayData with hours := dayData.hours + hoursOf log }
  let dayData :=
    match truthyStr log.user_id with
    | some uid => { dayData with users := setAdd dayData.users uid }
    | none => dayData
  match truthyStr log.project_id with
  | some pid => { dayData with projects := setAdd dayData.projects pid }
  | none => dayData

/-- The fresh dailyMap entry of fetchTimeTrackingData. -/
def dayAcc0 : DayAcc := { hours := 0, users := [], projects := [] }

/-- The dailyMap of fetchTimeTrackingData, keyed by UTC start date. -/
def summaryDailyMap (workLogs : List WorkLog) : List (Int × DayAcc) :=
  bucketFold (fun _ => true) (fun log => dayOfMs log.start_time)
    (fun _ => dayAcc0) summaryDayUpd workLogs

/-- The sorted dailyArray of fetchTimeTrackingData. -/
def summaryDailyArray (workLogs : List WorkLog) : List DailyData :=
  jsSortBy (fun a b => decide (a.date ≤ b.date))
    ((summaryDailyMap workLogs).map (fun p =>
      { date := p.1, hours := jsRound2 p.2.hours, users := p.2.users.length,
        projects := p.2.projects.length }))

/-- The fresh projectMap entry of fetchTimeTrackingData. -/
def sProjAcc0 : SProjAcc := { hours := 0, users := [], tasks := [], completedTasks := 0 }

/-- Per-log mutation of a projectMap entry in fetchTimeTrackingData. -/
def summaryProjUpd (log : WorkLog) (d : SProjAcc) : SProjAcc :=
  let d := { d with hours := d.hours + hoursOf log }
  let d :=
    match truthyStr log.user_id with
    | some uid => { d with users := setAdd d.users uid }
    | none => d
  let d :=
    match truthyStr log.task_id with
    | some tid => { d with tasks := setAdd d.tasks tid }
    | none => d
  if logTaskCompleted log then { d with completedTasks := d.completedTasks + 1 } else d

/-- The projectMap of fetchTimeTrackingData (logs without a truthy
project_id are skipped). -/
def summaryProjectMap (workLogs : List WorkLog) : List (String × SProjAcc) :=
  bucketFold (fun log => (truthyStr log.project_id).isSome)
    (fun log => (truthyStr log.project_id).getD "")
    (fun _ => sProjAcc0) summaryProjUpd workLogs

/-- The sorted projectSummary array of fetchTimeTrackingData. -/
def summaryProjectSummary (workLogs : List WorkLog) : List ProjectSummary :=
  jsSortBy (fun a b => decide (b.totalHours ≤ a.totalHours))
    ((summaryProjectMap workLogs).map (fun p =>
      let completionRate : ℚ :=
        if 0 < p.2.tasks.length then ((p.2.completedTasks : ℚ) / p.2.tasks.length) * 100 else 0
      { projectName :=
          strOr (((workLogs.find? (fun log => log.project_id = some p.1)).bind
            (·.projects)).map (·.name)) "Unknown Project",
        totalHours := jsRound2 p.2.hours,
        userCount := p.2.users.length,
        taskCount := p.2.tasks.length,
        completionRate := jsRound2 completionRate }))

/-- The pure body of fetchTimeTrackingData, applied to the window-filtered
work logs. -/
def fetchTimeTrackingDataCore (workLogs : List WorkLog) : SummaryReport :=
  let dailyArray := summaryDailyArray workLogs
  let totalHours := (dailyArray.map (·.hours)).sum
  let avgHoursPerDay := if 0 < dailyArray.length then totalHours / dailyArray.length else 0
  let peakDay : Option Int :=
    match dailyArray with
    | [] => none
    | d0 :: _ =>
      some ((dailyArray.foldl (fun mx day => if mx.hours < day.hours then day else mx) d0).date)
  { dailyData := dailyArray
    totalHours := jsRound2 totalHours
    avgHoursPerDay := jsRound2 avgHoursPerDay
    peakDay := peakDay
    projectSummary := summaryProjectSummary workLogs }

/-- fetchTimeTrackingData: fetch the work logs for the window, then build
the Summary report; a fetch error is rethrown and no report is produced. -/
def fetchTimeTrackingData (w : Window) (workLogsRes : Except String (List WorkLog)) :
    Except String SummaryReport := do
  let workLogs ← workLogsRes
  pure (fetchTimeTrackingDataCore (windowFilter w workLogs))
/-- Project report: a per-user row of the drill-down user breakdown. -/
structure UserBreakdown where
  userId : String
  userName : String
  hours : ℚ
  tasks : Nat
  completedTasks : Nat
  efficiency : ℚ
deriving DecidableEq, Repr

/-- Project report: a per-task row of the task breakdown. -/
structure TaskBreakdown where
  taskId : String
  taskName : String
  status : String
  assignedUser : String
  estimatedHours : ℚ
  actualHours : ℚ
  efficiency : ℚ
deriving DecidableEq, Repr

/-- Project report: one row per project. -/
structure ProjectData where
  id : String
  name : String
  type : String
  status : String
  totalHours : ℚ
  userCount : Nat
  taskCount : Nat
  completedTasks : Nat
  estimatedHours : ℚ
  deadline : Option Int
  efficiency : ℚ
  userBreakdown : List UserBreakdown
  taskBreakdown : List TaskBreakdown
deriving DecidableEq, Repr

/-- Project report: per-(project, user) accumulator of the log pass. -/
structure PUAcc where
  hours : ℚ
  tasks : List String
  completedTasks : Nat
deriving DecidableEq, Repr

/-- Project report: per-task accumulator of the log pass. -/
structure PTAcc where
  hours : ℚ
  estimatedHours : ℚ
  status : String
  assignedUser : String
deriving DecidableEq, Repr

/-- The initial ProjectData row created for every fetched project. -/
def initProjectData (project : Project) : ProjectData :=
  { id := project.id, name := project.name, type := project.type,
    status := strOr project.status "Unknown",
    totalHours := 0, userCount := 0, taskCount := 0, completedTasks := 0,
    estimatedHours := 0, deadline := project.deadline, efficiency := 0,
    userBreakdown := [], taskBreakdown := [] }

/-- The projectMap after initialization from the projects table. -/
def initialProjectMap (projectsData : List Project) : List (String × ProjectData) :=
  projectsData.foldl (fun m project => alSet m project.id (initProjectData project)) []

/-- Log-pass step on the projectMap: add the log's hours to the project's
total (only when the row exists; logs without a truthy project_id are
skipped by the enclosing guard). -/
def paProjectHoursStep (m : List (String × ProjectData)) (log : WorkLog) :
    List (String × ProjectData) :=
  match truthyStr log.project_id with
  | none => m
  | some pid => alAdjust m pid (fun p => { p with totalHours := p.totalHours + hoursOf log })

/-- Log-pass mutation of a per-(project, user) accumulator. -/
def paUserUpd (log : WorkLog) (userData : PUAcc) : PUAcc :=
  let userData := { userData with hours := userData.hours + hoursOf log }
  let userData :=
    match truthyStr log.task_id with
    | some tid => { userData with tasks := setAdd userData.tasks tid }
    | none => userData
  if logTaskCompleted log then
    { userData with completedTasks := userData.completedTasks + 1 }
  else userData

/-- Log-pass step on the nested userMap (project id → user id → PUAcc). -/
def paUserMapStep (m : List (String × List (String × PUAcc))) (log : WorkLog) :
    List (String × List (String × PUAcc)) :=
  match truthyStr log.project_id with
  | none => m
  | some pid =>
    match truthyStr log.user_id with
    | none => m
    | some uid =>
      alUpd m pid [] (fun projectUsers =>
        alUpd projectUsers uid { hours := 0, tasks := [], completedTasks := 0 } (paUserUpd log))

/-- Log-pass step on the taskMap; a new entry snapshots the estimate,
status and assignee from the first log referencing the task. -/
def paTaskMapStep (m : List (String × PTAcc)) (log : WorkLog) : List (String × PTAcc) :=
  match truthyStr log.project_id with
  | none => m
  | some _ =>
    match truthyStr log.task_id with
    | none => m
    | some tid =>
      alUpd m tid
        { hours := 0,
          estimatedHours := qOr (log.tasks.bind (·.estimate_hours)) 0,
          status := strOr (log.tasks.map (·.status)) "Unknown",
          assignedUser := strOr (log.tasks.bind (·.assigned_user_id)) "Unassigned" }
        (fun taskData => { taskData with hours := taskData.hours + hoursOf log })

/-- The combined log-pass state of fetchProjectAnalytics. -/
structure PALogState where
  projectMap : List (String × ProjectData)
  userMap : List (String × List (String × PUAcc))
  taskMap : List (String × PTAcc)
deriving DecidableEq, Repr

/-- One iteration of the work-log forEach of fetchProjectAnalytics. -/
def paLogStep (st : PALogState) (log : WorkLog) : PALogState :=
  { projectMap := paProjectHoursStep st.projectMap log
    userMap := paUserMapStep st.userMap log
    taskMap := paTaskMapStep st.taskMap log }

/-- The log-pass state after processing all work logs. -/
def paLogState (projectsData : List Project) (workLogs : List WorkLog) : PALogState :=
  workLogs.foldl paLogStep
    { projectMap := initialProjectMap projectsData, userMap := [], taskMap := [] }

/-- The metrics pass of fetchProjectAnalytics for one project id: task
counts, estimated hours and efficiency from the full task table, plus the
user and task breakdowns.  The project row is only read and written through
its map entry, and the pass touches the row of the given id only. -/
def paMetricsFor (allTasks : List Task) (workLogs : List WorkLog)
    (userMap : List (String × List (String × PUAcc))) (taskMap : List (String × PTAcc))
    (pid : String) (pd : ProjectData) : ProjectData :=
  let projectTasks := allTasks.filter (fun task => task.project_id = pid)
  let taskCount := projectTasks.length
  let completedTasks := (projectTasks.filter (fun task => task.status = "Completed")).length
  let estimatedHours := (projectTasks.map (fun task => qOr task.estimate_hours 0)).sum
  let efficiency := if 0 < estimatedHours then (pd.totalHours / estimatedHours) * 100 else 0
  let projectUsers := (alGet userMap pid).getD []
  let userCount := projectUsers.length
  let userBreakdown := jsSortBy (fun a b => decide (b.hours ≤ a.hours))
    (projectUsers.map (fun p =>
      let efficiency : ℚ :=
        if 0 < p.2.tasks.length then ((p.2.completedTasks : ℚ) / p.2.tasks.length) * 100 else 0
      { userId := p.1,
        userName := strOr (((workLogs.find? (fun log => log.user_id = some p.1)).bind
          (·.users)).map (·.name)) "Unknown User",
        hours := jsRound2 p.2.hours,
        tasks := p.2.tasks.length,
        completedTasks := p.2.completedTasks,
        efficiency := jsRound2 efficiency }))
  let taskBreakdown := jsSortBy (fun a b => decide (b.actualHours ≤ a.actualHours))
    ((taskMap.filter (fun q =>
      match allTasks.find? (fun t => t.id = q.1) with
      | some task => decide (task.project_id = pid)
      | none => false)).map (fun q =>
      let efficiency : ℚ :=
        if 0 < q.2.estimatedHours then (q.2.hours / q.2.estimatedHours) * 100 else 0
      { taskId := q.1,
        taskName := strOr ((allTasks.find? (fun t => t.id = q.1)).map (·.name)) "Unknown Task",
        status := q.2.status,
        assignedUser := q.2.assignedUser,
        estimatedHours := q.2.estimatedHours,
        actualHours := jsRound2 q.2.hours,
        efficiency := jsRound2 efficiency }))
  { pd with
    taskCount := taskCount, completedTasks := completedTasks,
    estimatedHours := estimatedHours, efficiency := efficiency,
    userCount := userCount, userBreakdown := userBreakdown,
    taskBreakdown := taskBreakdown }

/-- The metrics pass over every fetched project. -/
def paMetricsFold (allTasks : List Task) (workLogs : List WorkLog)
    (userMap : List (String × List (String × PUAcc))) (taskMap : List (String × PTAcc))
    (projectsData : List Project) (m0 : List (String × ProjectData)) :
    List (String × ProjectData) :=
  projectsData.foldl
    (fun m project => alAdjust m project.id (paMetricsFor allTasks workLogs userMap taskMap project.id)) m0

/-- The completion ratio used by the 'completion' sort key; none models the
NaN produced by 0/0 when a project has no tasks. -/
def completionRatio (p : ProjectData) : Option ℚ :=
  if p.taskCount = 0 then none else some ((p.completedTasks : ℚ) / p.taskCount)

/-- The stays-before relation of the final Array#sort of
fetchProjectAnalytics for each sort key (a NaN comparator value is treated
as 0 by SortCompare, so it keeps the original order). -/
def paLe (sortBy : String) (a b : ProjectData) : Bool :=
  if sortBy = "hours" then decide (b.totalHours ≤ a.totalHours)
  else if sortBy = "efficiency" then decide (b.efficiency ≤ a.efficiency)
  else if sortBy = "completion" then
    match completionRatio a, completionRatio b with
    | some ra, some rb => decide (rb - ra ≤ 0)
    | _, _ => true
  else if sortBy = "name" then decide (a.name ≤ b.name)
  else decide (b.totalHours ≤ a.totalHours)

/-- The pure body of fetchProjectAnalytics, applied to the window-filtered
work logs. -/
def fetchProjectAnalyticsCore (projectsData : List Project) (workLogs : List WorkLog)
    (allTasks : List Task) (sortBy : String) : List ProjectData :=
  let st := paLogState projectsData workLogs
  let finalMap := paMetricsFold allTasks workLogs st.userMap st.taskMap projectsData st.projectMap
  jsSortBy (paLe sortBy) (finalMap.map (·.2))

/-- fetchProjectAnalytics: fetch projects, then the window's work logs,
then all tasks — each failed fetch is rethrown before anything is
aggregated — and only then build the report. -/
def fetchProjectAnalytics (w : Window) (projectsRes : Except String (List Project))
    (workLogsRes : Except String (List WorkLog)) (tasksRes : Except String (List Task))
    (sortBy : String) : Except String (List ProjectData) := do
  let projectsData ← projectsRes
  let workLogs ← workLogsRes
  let allTasks ← tasksRes
  pure (fetchProjectAnalyticsCore projectsData (windowFilter w workLogs) allTasks sortBy)
/-- A JS number: a finite real, NaN, or a signed infinity
(inf true is positive infinity). -/
inductive JsNum where
  | num : ℝ → JsNum
  | nan : JsNum
  | inf : Bool → JsNum

/-- IEEE addition on JsNum. -/
noncomputable def jsAdd : JsNum → JsNum → JsNum
  | .nan, _ => .nan
  | _, .nan => .nan
  | .inf s, .inf t => if s = t then .inf s else .nan
  | .inf s, .num _ => .inf s
  | .num _, .inf t => .inf t
  | .num a, .num b => .num (a + b)

/-- IEEE negation on JsNum. -/
noncomputable def jsNeg : JsNum → JsNum
  | .num a => .num (-a)
  | .nan => .nan
  | .inf s => .inf (!s)

/-- IEEE subtraction on JsNum. -/
noncomputable def jsSub (a b : JsNum) : JsNum := jsAdd a (jsNeg b)

/-- IEEE multiplication on JsNum. -/
noncomputable def jsMul : JsNum → JsNum → JsNum
  | .nan, _ => .nan
  | _, .nan => .nan
  | .inf s, .inf t => .inf (s = t)
  | .inf s, .num b => if b = 0 then .nan else .inf (s = (0 < b))
  | .num a, .inf t => if a = 0 then .nan else .inf (t = (0 < a))
  | .num a, .num b => .num (a * b)

/-- IEEE division on JsNum; a zero divisor is the positive zero, so a
nonzero numerator gives a signed infinity and 0/0 gives NaN. -/
noncomputable def jsDiv : JsNum → JsNum → JsNum
  | .nan, _ => .nan
  | _, .nan => .nan
  | .inf _, .inf _ => .nan
  | .inf s, .num b => if b = 0 then .inf s else .inf (s = (0 ≤ b))
  | .num _, .inf _ => .num 0
  | .num a, .num b => if b = 0 then (if a = 0 then .nan else .inf (0 < a)) else .num (a / b)

/-- Math.sqrt on JsNum (NaN for negative arguments). -/
noncomputable def jsSqrt : JsNum → JsNum
  | .num a => if a < 0 then .nan else .num (Real.sqrt a)
  | .nan => .nan
  | .inf s => if s then .inf true else .nan

/-- Math.max on JsNum (NaN-propagating). -/
noncomputable def jsMax : JsNum → JsNum → JsNum
  | .nan, _ => .nan
  | _, .nan => .nan
  | .inf true, _ => .inf true
  | .num _, .inf true => .inf true
  | .inf false, y => y
  | .num a, .inf false => .num a
  | .num a, .num b => .num (max a b)

/-- Math.round(x * 100) / 100 on JsNum. -/
noncomputable def jsnRound2 : JsNum → JsNum
  | .num x => .num (((⌊x * 100 + 1/2⌋ : ℤ) : ℝ) / 100)
  | .nan => .nan
  | .inf s => .inf s

/-- Whether a comparator value keeps the original order: v ≤ 0, with a NaN
comparator value treated as 0 by SortCompare. -/
noncomputable def jsCmpLe0 : JsNum → Bool
  | .nan => true
  | .inf s => !s
  | .num x => decide (x ≤ 0)

/-- The JS comparison `c <= x` (false whenever x is NaN). -/
noncomputable def jsGeNum : JsNum → ℝ → Bool
  | .num x, c => decide (c ≤ x)
  | .nan, _ => false
  | .inf s, _ => s

/-- The inline consistency calculator of fetchUserAnalytics and
fetchWorkPatternData: mean and population variance of the daily-hours
series with no emptiness or zero-mean guard, then
max(0, 100 - (sqrt(variance) / avg) * 100), with full IEEE NaN/Infinity
propagation. -/
noncomputable def jsConsistency (dailyHours : List ℝ) : JsNum :=
  let avgDailyHours : JsNum := jsDiv (.num dailyHours.sum) (.num dailyHours.length)
  let variance : JsNum :=
    jsDiv (dailyHours.foldl
      (fun s h => jsAdd s (jsMul (jsSub (.num h) avgDailyHours) (jsSub (.num h) avgDailyHours)))
      (.num 0)) (.num dailyHours.length)
  jsMax (.num 0) (jsSub (.num 100) (jsMul (jsDiv (jsSqrt variance) avgDailyHours) (.num 100)))

/-- Modelled from the spec, for the refinement claims about the
calculators: mean of a series, as written in §4.2. -/
noncomputable def specMean (l : List ℝ) : ℝ := l.sum / l.length

/-- Modelled from the spec: population variance (divide by n, not n-1). -/
noncomputable def specVariance (l : List ℝ) : ℝ :=
  ((l.map (fun x => (x - specMean l) ^ 2)).sum) / l.length

/-- Modelled from the spec: population standard deviation. -/
noncomputable def specStddev (l : List ℝ) : ℝ := Real.sqrt (specVariance l)

/-- Modelled from the spec: consistency =
max(0, 100 - (stddev(dailyHours) / mean(dailyHours)) * 100). -/
noncomputable def specConsistency (l : List ℝ) : ℝ :=
  max 0 (100 - specStddev l / specMean l * 100)
/-- User report: the work-pattern sub-object of a user row (peakDay is
none when the source leaves the initial ''). -/
structure UserWorkPattern where
  peakDay : Option Int
  peakHour : Int
  avgSessionLength : ℚ
  totalSessions : Nat
  consistency : JsNum

/-- User report: a row of the per-project drill-down. -/
structure ProjectBreakdown where
  projectId : String
  projectName : String
  hours : ℚ
  tasks : Nat
  completedTasks : Nat
  efficiency : ℚ
deriving DecidableEq, Repr

/-- User report: a row of the daily breakdown. -/
structure DailyBreakdown where
  date : Int
  hours : ℚ
  projects : Nat
  tasks : Nat
deriving DecidableEq, Repr

/-- User report: one row per user. -/
structure UserData where
  id : String
  name : String
  email : String
  role : String
  specialization : Option String
  totalHours : ℚ
  avgHoursPerDay : ℚ
  projectCount : Nat
  taskCount : Nat
  completedTasks : Nat
  efficiency : ℚ
  productivity : ℚ
  workPattern : UserWorkPattern
  projectBreakdown : List ProjectBreakdown
  dailyBreakdown : List DailyBreakdown

/-- User report: per-day accumulator of one user. -/
structure UDayAcc where
  hours : ℚ
  projects : List String
  tasks : List String
deriving DecidableEq, Repr

/-- User report: per-project accumulator of one user. -/
structure UProjAcc where
  hours : ℚ
  tasks : List String
  completedTasks : Nat
  estimatedHours : ℚ
deriving DecidableEq, Repr

/-- The initial UserData row created for every fetched user. -/
def initUserData (user : User) : UserData :=
  { id := user.id, name := user.name, email := user.email,
    role := strOr user.role "User", specialization := user.specialization,
    totalHours := 0, avgHoursPerDay := 0, projectCount := 0, taskCount := 0,
    completedTasks := 0, efficiency := 0, productivity := 0,
    workPattern :=
      { peakDay := none, peakHour := 0, avgSessionLength := 0,
        totalSessions := 0, consistency := .num 0 },
    projectBreakdown := [], dailyBreakdown := [] }

/-- The userMap after initialization from the users table. -/
def initialUserMap (usersData : List User) : List (String × UserData) :=
  usersData.foldl (fun m user => alSet m user.id (initUserData user)) []

/-- Log-pass step collecting each user's logs in order. -/
def uaWorkLogsStep (m : List (String × List WorkLog)) (log : WorkLog) :
    List (String × List WorkLog) :=
  match truthyStr log.user_id with
  | none => m
  | some uid => alUpd m uid [] (fun logs => logs ++ [log])

/-- Log-pass step adding the log's hours to the user row's total. -/
def uaTotalHoursStep (m : List (String × UserData)) (log : WorkLog) :
    List (String × UserData) :=
  match truthyStr log.user_id with
  | none => m
  | some uid => alAdjust m uid (fun u => { u with totalHours := u.totalHours + hoursOf log })

/-- Log-pass mutation of one user's per-day accumulator. -/
def uaDayUpd (log : WorkLog) (dayData : UDayAcc) : UDayAcc :=
  let dayData := { dayData with hours := dayData.hours + hoursOf log }
  let dayData :=
    match truthyStr log.project_id with
    | some pid => { dayData with projects := setAdd dayData.projects pid }
    | none => dayData
  match truthyStr log.task_id with
  | some tid => { dayData with tasks := setAdd dayData.tasks tid }
  | none => dayData

/-- Log-pass step on the nested userDailyMap (user id → date → UDayAcc). -/
def uaDailyMapStep (m : List (String × List (Int × UDayAcc))) (log : WorkLog) :
    List (String × List (Int × UDayAcc)) :=
  match truthyStr log.user_id with
  | none => m
  | some uid =>
    alUpd m uid [] (fun userDaily =>
      alUpd userDaily (dayOfMs log.start_time) { hours := 0, projects := [], tasks := [] }
        (uaDayUpd log))

/-- Log-pass mutation of one user's per-project accumulator. -/
def uaProjUpd (log : WorkLog) (projectData : UProjAcc) : UProjAcc :=
  let projectData := { projectData with hours := projectData.hours + hoursOf log }
  let projectData :=
    match truthyStr log.task_id with
    | some tid => { projectData with tasks := setAdd projectData.tasks tid }
    | none => projectData
  let projectData :=
    if logTaskCompleted log then
      { projectData with completedTasks := projectData.completedTasks + 1 }
    else projectData
  { projectData with
    estimatedHours := addTruthy projectData.estimatedHours (log.tasks.bind (·.estimate_hours)) }

/-- The fresh per-(user, project) accumulator of fetchUserAnalytics. -/
def uProjAcc0 : UProjAcc := { hours := 0, tasks := [], completedTasks := 0, estimatedHours := 0 }

/-- Log-pass step on the nested userProjectMap (skipped unless both the
user id and the project id are truthy). -/
def uaProjectMapStep : List (String × List (String × UProjAcc)) → WorkLog →
    List (String × List (String × UProjAcc)) :=
  bucketStep
    (fun log => (truthyStr log.user_id).isSome && (truthyStr log.project_id).isSome)
    (fun log => (truthyStr log.user_id).getD "")
    (fun _ => [])
    (fun log userProjects =>
      alUpd userProjects ((truthyStr log.project_id).getD "") uProjAcc0 (uaProjUpd log))

/-- Log-pass step on the nested userHourlyMap
(`userHourly.set(hour, (userHourly.get(hour) || 0) + hours)`). -/
def uaHourlyMapStep (m : List (String × List (Int × ℚ))) (log : WorkLog) :
    List (String × List (Int × ℚ)) :=
  match truthyStr log.user_id with
  | none => m
  | some uid =>
    alUpd m uid [] (fun userHourly =>
      alSet userHourly (hourOfMs log.start_time)
        (((alGet userHourly (hourOfMs log.start_time)).getD 0) + hoursOf log))

/-- The combined log-pass state of fetchUserAnalytics. -/
structure UALogState where
  userMap : List (String × UserData)
  userWorkLogs : List (String × List WorkLog)
  userDailyMap : List (String × List (Int × UDayAcc))
  userProjectMap : List (String × List (String × UProjAcc))
  userHourlyMap : List (String × List (Int × ℚ))

/-- One iteration of the work-log forEach of fetchUserAnalytics. -/
def uaLogStep (st : UALogState) (log : WorkLog) : UALogState :=
  { userMap := uaTotalHoursStep st.userMap log
    userWorkLogs := uaWorkLogsStep st.userWorkLogs log
    userDailyMap := uaDailyMapStep st.userDailyMap log
    userProjectMap := uaProjectMapStep st.userProjectMap log
    userHourlyMap := uaHourlyMapStep st.userHourlyMap log }

/-- The log-pass state after processing all work logs. -/
def uaLogState (usersData : List User) (workLogs : List WorkLog) : UALogState :=
  workLogs.foldl uaLogStep
    { userMap := initialUserMap usersData, userWorkLogs := [], userDailyMap := [],
      userProjectMap := [], userHourlyMap := [] }

/-- The total estimated hours of the tasks a user's logs touch:
sum of (task.estimate_hours || 0) over the full task table filtered to
tasks referenced by some of the user's logs. -/
def uaTotalEstimatedHours (allTasks : List Task) (userLogs : List WorkLog) : ℚ :=
  ((allTasks.filter (fun task => userLogs.any (fun log => log.task_id = some task.id))).map
    (fun task => qOr task.estimate_hours 0)).sum

/-- The metrics pass of fetchUserAnalytics for one user id. -/
noncomputable def uaMetricsFor (allTasks : List Task) (st : UALogState) (uid : String)
    (userData : UserData) : UserData :=
  let userLogs := (alGet st.userWorkLogs uid).getD []
  let userDaily := (alGet st.userDailyMap uid).getD []
  let userProjects := (alGet st.userProjectMap uid).getD []
  let userHourly := (alGet st.userHourlyMap uid).getD []
  let totalDays := userDaily.length
  let avgHoursPerDay := if 0 < totalDays then userData.totalHours / totalDays else 0
  let projectCount := userProjects.length
  let userTasks := allTasks.filter (fun task => userLogs.any (fun log => log.task_id = some task.id))
  let taskCount := userTasks.length
  let completedTasks := (userTasks.filter (fun task => task.status = "Completed")).length
  let totalEstimatedHours := (userTasks.map (fun task => qOr task.estimate_hours 0)).sum
  let efficiency :=
    if 0 < totalEstimatedHours then (userData.totalHours / totalEstimatedHours) * 100 else 0
  let productivity :=
    if 0 < userData.totalHours then (completedTasks : ℚ) / userData.totalHours else 0
  let sessions := userLogs.length
  let avgSessionLength := if 0 < sessions then userData.totalHours / sessions else 0
  let peak : Option Int × ℚ :=
    userDaily.foldl (fun acc p => if acc.2 < p.2.hours then (some p.1, p.2.hours) else acc) (none, 0)
  let peakHourAcc : Int × ℚ :=
    userHourly.foldl (fun acc p => if acc.2 < p.2 then (p.1, p.2) else acc) (0, 0)
  let dailyHours : List ℝ := userDaily.map (fun p => ((p.2.hours : ℚ) : ℝ))
  let consistency := jsConsistency dailyHours
  let dailyBreakdown := jsSortBy (fun a b => decide (a.date ≤ b.date))
    (userDaily.map (fun p =>
      { date := p.1, hours := jsRound2 p.2.hours, projects := p.2.projects.length,
        tasks := p.2.tasks.length }))
  let projectBreakdown := jsSortBy (fun a b => decide (b.hours ≤ a.hours))
    (userProjects.map (fun p =>
      let efficiency : ℚ :=
        if 0 < p.2.estimatedHours then (p.2.hours / p.2.estimatedHours) * 100 else 0
      { projectId := p.1,
        projectName := strOr (((userLogs.find? (fun log => log.project_id = some p.1)).bind
          (·.projects)).map (·.name)) "Unknown Project",
        hours := jsRound2 p.2.hours,
        tasks := p.2.tasks.length,
        completedTasks := p.2.completedTasks,
        efficiency := jsRound2 efficiency }))
  { userData with
    avgHoursPerDay := avgHoursPerDay, projectCount := projectCount,
    taskCount := taskCount, completedTasks := completedTasks,
    efficiency := efficiency, productivity := productivity,
    workPattern :=
      { peakDay := peak.1, peakHour := peakHourAcc.1,
        avgSessionLength := jsRound2 avgSessionLength, totalSessions := sessions,
        consistency := jsnRound2 consistency },
    projectBreakdown := projectBreakdown, dailyBreakdown := dailyBreakdown }

/-- The metrics pass over every fetched user. -/
noncomputable def uaMetricsFold (allTasks : List Task) (st : UALogState)
    (usersData : List User) (m0 : List (String × UserData)) : List (String × UserData) :=
  usersData.foldl (fun m user => alAdjust m user.id (uaMetricsFor allTasks st user.id)) m0

/-- The stays-before relation of the final Array#sort of fetchUserAnalytics
for each sort key. -/
noncomputable def uaLe (sortBy : String) (a b : UserData) : Bool :=
  if sortBy = "hours" then decide (b.totalHours ≤ a.totalHours)
  else if sortBy = "efficiency" then decide (b.efficiency ≤ a.efficiency)
  else if sortBy = "productivity" then decide (b.productivity ≤ a.productivity)
  else if sortBy = "consistency" then
    jsCmpLe0 (jsSub b.workPattern.consistency a.workPattern.consistency)
  else if sortBy = "name" then decide (a.name ≤ b.name)
  else decide (b.totalHours ≤ a.totalHours)

/-- The pure body of fetchUserAnalytics, applied to the window-filtered
work logs. -/
noncomputable def fetchUserAnalyticsCore (usersData : List User) (workLogs : List WorkLog)
    (allTasks : List Task) (sortBy : String) : List UserData :=
  let st := uaLogState usersData workLogs
  let finalMap := uaMetricsFold allTasks st usersData st.userMap
  jsSortBy (uaLe sortBy) (finalMap.map (·.2))

/-- fetchUserAnalytics: fetch users, then the window's work logs, then all
tasks — each failed fetch is rethrown before anything is aggregated — and
only then build the report. -/
noncomputable def fetchUserAnalytics (w : Window) (usersRes : Except String (List User))
    (workLogsRes : Except String (List WorkLog)) (tasksRes : Except String (List Task))
    (sortBy : String) : Except String (List UserData) := do
  let usersData ← usersRes
  let workLogs ← workLogsRes
  let allTasks ← tasksRes
  pure (fetchUserAnalyticsCore usersData (windowFilter w workLogs) allTasks sortBy)
/-- Work-pattern report: hourlyMap accumulator entry. -/
structure WHourAcc where
  hours : ℚ
  users : List String
  estimatedHours : ℚ
  actualHours : ℚ
deriving DecidableEq, Repr

/-- Work-pattern report: dailyMap accumulator entry. -/
structure WDayAcc where
  hours : ℚ
  users : List String
  projects : List String
  completedTasks : Nat
  totalTasks : Nat
deriving DecidableEq, Repr

/-- Work-pattern report: weeklyMap accumulator entry. -/
structure WWeekAcc where
  hours : ℚ
  users : List String
deriving DecidableEq, Repr

/-- Work-pattern report: per-user or per-project productivity entry. -/
structure WProdAcc where
  hours : ℚ
  completedTasks : Nat
  name : String
deriving DecidableEq, Repr

/-- Work-pattern report: a row of the hourly pattern. -/
structure HourlyPattern where
  hour : Int
  totalHours : ℚ
  userCount : Nat
  avgHoursPerUser : ℚ
  efficiency : ℚ
deriving DecidableEq, Repr

/-- Work-pattern report: a row of the daily pattern. -/
structure DailyPattern where
  day : Int
  totalHours : ℚ
  userCount : Nat
  projectCount : Nat
  avgHoursPerUser : ℚ
  productivity : ℚ
deriving DecidableEq, Repr

/-- Work-pattern report: a row of the weekly pattern. -/
structure WeeklyPattern where
  week : Int
  totalHours : ℚ
  userCount : Nat
  avgHoursPerWeek : ℚ
  trend : String
deriving DecidableEq, Repr

/-- Work-pattern report: the team-wide scalars (peakDay is none when the
daily pattern is empty, where the source shows ''). -/
structure TeamMetrics where
  totalHours : ℚ
  avgHoursPerDay : ℚ
  peakHour : Int
  peakDay : Option Int
  mostProductiveUser : String
  mostProductiveProject : String
  teamEfficiency : ℚ
  consistency : JsNum

/-- Work-pattern report: a qualitative insight (its display strings are
presentation only; the type and threshold-derived trend are kept). -/
structure ProductivityInsight where
  type : String
  trend : String
deriving DecidableEq, Repr

/-- The Work-Pattern report emitted by fetchWorkPatternData. -/
structure WorkPatternData where
  hourlyPattern : List HourlyPattern
  dailyPattern : List DailyPattern
  weeklyPattern : List WeeklyPattern
  teamMetrics : TeamMetrics
  productivityInsights : List ProductivityInsight

/-- Log-pass mutation of an hourlyMap entry. -/
def wpHourlyUpd (log : WorkLog) (d : WHourAcc) : WHourAcc :=
  let d := { d with hours := d.hours + hoursOf log }
  let d :=
    match truthyStr log.user_id with
    | some uid => { d with users := setAdd d.users uid }
    | none => d
  let d := { d with estimatedHours := addTruthy d.estimatedHours (log.tasks.bind (·.estimate_hours)) }
  { d with actualHours := d.actualHours + hoursOf log }

/-- The fresh hourlyMap entry. -/
def wpHourAcc0 : WHourAcc := { hours := 0, users := [], estimatedHours := 0, actualHours := 0 }

/-- The hourlyMap step of fetchWorkPatternData (keyed by the start hour). -/
def wpHourlyStep : List (Int × WHourAcc) → WorkLog → List (Int × WHourAcc) :=
  bucketStep (fun _ => true) (fun log => hourOfMs log.start_time)
    (fun _ => wpHourAcc0) wpHourlyUpd

/-- Log-pass mutation of a dailyMap entry. -/
def wpDayUpd (log : WorkLog) (d : WDayAcc) : WDayAcc :=
  let d := { d with hours := d.hours + hoursOf log }
  let d :=
    match truthyStr log.user_id with
    | some uid => { d with users := setAdd d.users uid }
    | none => d
  let d :=
    match truthyStr log.project_id with
    | some pid => { d with projects := setAdd d.projects pid }
    | none => d
  let d := if logTaskCompleted log then { d with completedTasks := d.completedTasks + 1 } else d
  if (truthyStr log.task_id).isSome then { d with totalTasks := d.totalTasks + 1 } else d

/-- The fresh dailyMap entry. -/
def wpDayAcc0 : WDayAcc :=
  { hours := 0, users := [], projects := [], completedTasks := 0, totalTasks := 0 }

/-- The dailyMap step of fetchWorkPatternData (keyed by the start date). -/
def wpDayStep : List (Int × WDayAcc) → WorkLog → List (Int × WDayAcc) :=
  bucketStep (fun _ => true) (fun log => dayOfMs log.start_time)
    (fun _ => wpDayAcc0) wpDayUpd

/-- Log-pass mutation of a weeklyMap entry. -/
def wpWeekUpd (log : WorkLog) (d : WWeekAcc) : WWeekAcc :=
  let d := { d with hours := d.hours + hoursOf log }
  match truthyStr log.user_id with
  | some uid => { d with users := setAdd d.users uid }
  | none => d

/-- The weeklyMap step of fetchWorkPatternData (keyed by the week start). -/
def wpWeekStep : List (Int × WWeekAcc) → WorkLog → List (Int × WWeekAcc) :=
  bucketStep (fun _ => true) (fun log => weekKeyOfMs log.start_time)
    (fun _ => { hours := 0, users := [] }) wpWeekUpd

/-- Log-pass mutation of a userProductivity or projectProductivity entry. -/
def wpProdUpd (log : WorkLog) (d : WProdAcc) : WProdAcc :=
  let d := { d with hours := d.hours + hoursOf log }
  if logTaskCompleted log then { d with completedTasks := d.completedTasks + 1 } else d

/-- The userProductivity step (a new entry snapshots the user name from the
first log). -/
def wpUserProdStep : List (String × WProdAcc) → WorkLog → List (String × WProdAcc) :=
  bucketStep (fun log => (truthyStr log.user_id).isSome)
    (fun log => (truthyStr log.user_id).getD "")
    (fun log =>
      { hours := 0, completedTasks := 0, name := strOr ((log.users).map (·.name)) "Unknown" })
    wpProdUpd

/-- The projectProductivity step. -/
def wpProjProdStep : List (String × WProdAcc) → WorkLog → List (String × WProdAcc) :=
  bucketStep (fun log => (truthyStr log.project_id).isSome)
    (fun log => (truthyStr log.project_id).getD "")
    (fun log =>
      { hours := 0, completedTasks := 0, name := strOr ((log.projects).map (·.name)) "Unknown" })
    wpProdUpd

/-- The combined log-pass state of fetchWorkPatternData. -/
structure WPLogState where
  hourlyMap : List (Int × WHourAcc)
  dailyMap : List (Int × WDayAcc)
  weeklyMap : List (Int × WWeekAcc)
  userProductivity : List (String × WProdAcc)
  projectProductivity : List (String × WProdAcc)
deriving DecidableEq, Repr

/-- One iteration of the work-log forEach of fetchWorkPatternData. -/
def wpLogStep (st : WPLogState) (log : WorkLog) : WPLogState :=
  { hourlyMap := wpHourlyStep st.hourlyMap log
    dailyMap := wpDayStep st.dailyMap log
    weeklyMap := wpWeekStep st.weeklyMap log
    userProductivity := wpUserProdStep st.userProductivity log
    projectProductivity := wpProjProdStep st.projectProductivity log }

/-- The log-pass state after processing all work logs. -/
def wpLogState (workLogs : List WorkLog) : WPLogState :=
  workLogs.foldl wpLogStep
    { hourlyMap := [], dailyMap := [], weeklyMap := [], userProductivity := [],
      projectProductivity := [] }

/-- The sorted hourly pattern of fetchWorkPatternData. -/
def wpHourlyPattern (workLogs : List WorkLog) : List HourlyPattern :=
  jsSortBy (fun a b => decide (a.hour ≤ b.hour))
    (((wpLogState workLogs).hourlyMap).map (fun p =>
      { hour := p.1,
        totalHours := jsRound2 p.2.hours,
        userCount := p.2.users.length,
        avgHoursPerUser :=
          if 0 < p.2.users.length then jsRound2 (p.2.hours / p.2.users.length) else 0,
        efficiency :=
          if (0 : ℚ) < p.2.estimatedHours then
            jsRound2 ((p.2.actualHours / p.2.estimatedHours) * 100)
          else 0 }))

/-- The sorted daily pattern of fetchWorkPatternData. -/
def wpDailyPattern (workLogs : List WorkLog) : List DailyPattern :=
  jsSortBy (fun a b => decide (a.day ≤ b.day))
    (((wpLogState workLogs).dailyMap).map (fun p =>
      { day := p.1,
        totalHours := jsRound2 p.2.hours,
        userCount := p.2.users.length,
        projectCount := p.2.projects.length,
        avgHoursPerUser :=
          if 0 < p.2.users.length then jsRound2 (p.2.hours / p.2.users.length) else 0,
        productivity :=
          if 0 < p.2.totalTasks then jsRound2 (((p.2.completedTasks : ℚ) / p.2.totalTasks) * 100)
          else 0 }))

/-- The sorted weekly pattern of fetchWorkPatternData. -/
def wpWeeklyPattern (workLogs : List WorkLog) : List WeeklyPattern :=
  jsSortBy (fun a b => decide (a.week ≤ b.week))
    (((wpLogState workLogs).weeklyMap).map (fun p =>
      { week := p.1,
        totalHours := jsRound2 p.2.hours,
        userCount := p.2.users.length,
        avgHoursPerWeek := jsRound2 p.2.hours,
        trend := "stable" }))

/-- The pure body of fetchWorkPatternData, applied to the window-filtered
work logs. -/
noncomputable def fetchWorkPatternDataCore (workLogs : List WorkLog) : WorkPatternData :=
  let st := wpLogState workLogs
  let hourlyPattern := wpHourlyPattern workLogs
  let dailyPattern := wpDailyPattern workLogs
  let weeklyPattern := wpWeeklyPattern workLogs
  let totalHours := (dailyPattern.map (·.totalHours)).sum
  let avgHoursPerDay := if 0 < dailyPattern.length then totalHours / dailyPattern.length else 0
  let peakHour : Int :=
    match hourlyPattern with
    | [] => 0
    | h0 :: _ =>
      (hourlyPattern.foldl (fun mx h => if mx.totalHours < h.totalHours then h else mx) h0).hour
  let peakDay : Option Int :=
    match dailyPattern with
    | [] => none
    | d0 :: _ =>
      some ((dailyPattern.foldl (fun mx d => if mx.totalHours < d.totalHours then d else mx) d0).day)
  let mostProductiveUser :=
    st.userProductivity.foldl
      (fun mx p => if mx.hours < p.2.hours then p.2 else mx)
      ({ hours := 0, completedTasks := 0, name := "Unknown" } : WProdAcc)
  let mostProductiveProject :=
    st.projectProductivity.foldl
      (fun mx p => if mx.hours < p.2.hours then p.2 else mx)
      ({ hours := 0, completedTasks := 0, name := "Unknown" } : WProdAcc)
  let teamEfficiency : ℚ :=
    if 0 < hourlyPattern.length then
      ((hourlyPattern.map (·.efficiency)).sum) / hourlyPattern.length
    else 0
  let dailyHours : List ℝ := dailyPattern.map (fun d => ((d.totalHours : ℚ) : ℝ))
  let consistency := jsConsistency dailyHours
  { hourlyPattern := hourlyPattern
    dailyPattern := dailyPattern
    weeklyPattern := weeklyPattern
    teamMetrics :=
      { totalHours := jsRound2 totalHours
        avgHoursPerDay := jsRound2 avgHoursPerDay
        peakHour := peakHour
        peakDay := peakDay
        mostProductiveUser := mostProductiveUser.name
        mostProductiveProject := mostProductiveProject.name
        teamEfficiency := jsRound2 teamEfficiency
        consistency := jsnRound2 consistency }
    productivityInsights :=
      [ { type := "peak_hour", trend := "positive" },
        { type := "peak_day", trend := "positive" },
        { type := "efficiency",
          trend :=
            if 80 ≤ teamEfficiency then "positive"
            else if 60 ≤ teamEfficiency then "neutral" else "negative" },
        { type := "consistency",
          trend :=
            if jsGeNum consistency 80 then "positive"
            else if jsGeNum consistency 60 then "neutral" else "negative" } ] }

/-- fetchWorkPatternData: fetch the work logs for the window, then build
the Work-Pattern report; a fetch error is rethrown first. -/
noncomputable def fetchWorkPatternData (w : Window) (workLogsRes : Except String (List WorkLog)) :
    Except String WorkPatternData := do
  let workLogs ← workLogsRes
  pure (fetchWorkPatternDataCore (windowFilter w workLogs))
section AListLemmas

variable {κ V : Type} [DecidableEq κ]

theorem alKeys_cons (p : κ × V) (m : List (κ × V)) : alKeys (p :: m) = p.1 :: alKeys m := rfl

theorem alGet_cons (p : κ × V) (m : List (κ × V)) (k : κ) :
    alGet (p :: m) k = if p.1 = k then some p.2 else alGet m k := by
  by_cases h : p.1 = k <;> simp [alGet, List.find?_cons, h]

theorem alGet_alSet (m : List (κ × V)) (k k' : κ) (v : V) :
    alGet (alSet m k v) k' = if k = k' then some v else alGet m k' := by
  induction m with
  | nil =>
    simp only [alSet]
    rw [alGet_cons]
  | cons p rest ih =>
    simp only [alSet]
    by_cases hpk : p.1 = k
    · rw [if_pos hpk, alGet_cons, alGet_cons]
      by_cases h : k = k'
      · simp [h]
      · have hp' : ¬ p.1 = k' := fun hh => h (hpk.symm.trans hh)
        simp [h, hp']
    · rw [if_neg hpk, alGet_cons, alGet_cons, ih]
      by_cases h : p.1 = k'
      · have hkk' : ¬ k = k' := fun hh => hpk (h.trans hh.symm)
        simp [h, hkk']
      · simp [h]

theorem alGet_alAdjust (m : List (κ × V)) (k k' : κ) (f : V → V) :
    alGet (alAdjust m k f) k' = if k = k' then (alGet m k').map f else alGet m k' := by
  induction m with
  | nil =>
    simp only [alAdjust]
    by_cases h : k = k' <;> simp [alGet, h]
  | cons p rest ih =>
    simp only [alAdjust]
    by_cases hpk : p.1 = k
    · rw [if_pos hpk, alGet_cons, alGet_cons]
      by_cases h : k = k'
      · simp [h, hpk.trans h]
      · have hp' : ¬ p.1 = k' := fun hh => h (hpk.symm.trans hh)
        simp [h, hp']
    · rw [if_neg hpk, alGet_cons, alGet_cons, ih]
      by_cases h : p.1 = k'
      · have hkk' : ¬ k = k' := fun hh => hpk (h.trans hh.symm)
        simp [h, hkk']
      · simp [h]

theorem alKeys_alSet (m : List (κ × V)) (k : κ) (v : V) :
    alKeys (alSet m k v) = if k ∈ alKeys m then alKeys m else alKeys m ++ [k] := by
  induction m with
  | nil => simp [alSet, alKeys]
  | cons p rest ih =>
    simp only [alSet]
    by_cases hpk : p.1 = k
    · have hmem : k ∈ alKeys (p :: rest) := by
        rw [alKeys_cons, hpk]
        exact .head _
      rw [if_pos hpk, if_pos hmem, alKeys_cons, alKeys_cons, hpk]
    · have hne : k ∈ alKeys (p :: rest) ↔ k ∈ alKeys rest := by
        rw [alKeys_cons, List.mem_cons]
        have hne' : ¬ k = p.1 := fun h => hpk h.symm
        simp [hne']
      by_cases hk : k ∈ alKeys rest
      · rw [if_neg hpk, if_pos (hne.mpr hk), alKeys_cons, alKeys_cons, ih, if_pos hk]
      · rw [if_neg hpk, if_neg (fun h => hk (hne.mp h)), alKeys_cons, alKeys_cons, ih,
          if_neg hk, List.cons_append]

theorem alKeys_alAdjust (m : List (κ × V)) (k : κ) (f : V → V) :
    alKeys (alAdjust m k f) = alKeys m := by
  induction m with
  | nil => simp [alAdjust]
  | cons p rest ih =>
    simp only [alAdjust]
    by_cases hpk : p.1 = k
    · rw [if_pos hpk, alKeys_cons, alKeys_cons, hpk]
    · rw [if_neg hpk, alKeys_cons, alKeys_cons, ih]

theorem alKeys_nodup_alSet (m : List (κ × V)) (k : κ) (v : V)
    (h : (alKeys m).Nodup) : (alKeys (alSet m k v)).Nodup := by
  rw [alKeys_alSet]
  by_cases hk : k ∈ alKeys m
  · simpa [hk] using h
  · simp only [hk, if_false]
    rw [List.nodup_append]
    exact ⟨h, List.nodup_singleton k, by simpa using hk⟩

theorem mem_of_alGet_eq_some {m : List (κ × V)} {k : κ} {v : V}
    (h : alGet m k = some v) : (k, v) ∈ m := by
  induction m with
  | nil => simp [alGet] at h
  | cons p rest ih =>
    rw [alGet_cons] at h
    by_cases hpk : p.1 = k
    · simp [hpk] at h
      have hp : p = (k, v) := by
        cases p
        simp_all
      rw [hp]
      exact .head _
    · simp [hpk] at h
      exact .tail _ (ih h)

theorem alGet_eq_some_of_mem {m : List (κ × V)} {k : κ} {v : V}
    (hnd : (alKeys m).Nodup) (hm : (k, v) ∈ m) : alGet m k = some v := by
  induction m with
  | nil => simp at hm
  | cons p rest ih =>
    have hnd' : p.1 ∉ alKeys rest ∧ (alKeys rest).Nodup := by
      simpa [alKeys] using hnd
    rcases List.mem_cons.mp hm with h | h
    · subst h
      rw [alGet_cons]
      simp
    · have hkmem : k ∈ alKeys rest := by
        simpa [alKeys] using List.mem_map_of_mem (fun q : κ × V => q.1) h
      have hk : p.1 ≠ k := fun he => hnd'.1 (he ▸ hkmem)
      rw [alGet_cons, if_neg hk]
      exact ih hnd'.2 h

theorem alGet_isSome_iff (m : List (κ × V)) (k : κ) :
    (alGet m k).isSome ↔ k ∈ alKeys m := by
  induction m with
  | nil => simp [alGet, alKeys]
  | cons p rest ih =>
    rw [alGet_cons, alKeys_cons]
    by_cases hpk : p.1 = k
    · simp [hpk]
    · have hne : ¬ k = p.1 := fun h => hpk h.symm
      simp [hpk, hne, ih]

end AListLemmas

section SortLemmas

variable {α : Type}

theorem insertSorted_perm (le : α → α → Bool) (x : α) (l : List α) :
    (insertSorted le x l).Perm (x :: l) := by
  induction l with
  | nil => simp [insertSorted]
  | cons y ys ih =>
    by_cases h : le y x
    · simpa [insertSorted, h] using (ih.cons y).trans (List.Perm.swap x y ys)
    · simp [insertSorted, h]

theorem jsSortBy_perm (le : α → α → Bool) (l : List α) : (jsSortBy le l).Perm l := by
  suffices h : ∀ (l acc : List α),
      (l.foldl (fun a x => insertSorted le x a) acc).Perm (acc ++ l) by
    simpa using h l []
  intro l
  induction l with
  | nil => intro acc; simp
  | cons x xs ih =>
    intro acc
    have h1 : (xs.foldl (fun a x => insertSorted le x a) (insertSorted le x acc)).Perm
        (insertSorted le x acc ++ xs) := ih _
    have h2 : (insertSorted le x acc ++ xs).Perm ((x :: acc) ++ xs) :=
      (insertSorted_perm le x acc).append_right xs
    have h3 : ((x :: acc) ++ xs).Perm (acc ++ x :: xs) := by
      rw [List.cons_append]
      exact List.perm_middle.symm
    exact (h1.trans h2).trans h3

theorem mem_jsSortBy {le : α → α → Bool} {l : List α} {x : α} :
    x ∈ jsSortBy le l ↔ x ∈ l := (jsSortBy_perm le l).mem_iff

theorem jsSortBy_any (le : α → α → Bool) (l : List α) (p : α → Bool) :
    (jsSortBy le l).any p = l.any p := by
  cases hb : l.any p
  · rw [List.any_eq_false] at hb ⊢
    intro x hx
    exact hb x ((jsSortBy_perm le l).mem_iff.mp hx)
  · rw [List.any_eq_true] at hb ⊢
    obtain ⟨x, hx, hp⟩ := hb
    exact ⟨x, (jsSortBy_perm le l).mem_iff.mpr hx, hp⟩

end SortLemmas

section BucketLemmas

variable {L κ V : Type} [DecidableEq κ]

/-- The value of projection π at key j in an accumulator map (0 if the key
is absent). -/
def projAt (π : V → ℚ) (m : List (κ × V)) (j : κ) : ℚ := ((alGet m j).map π).getD 0

theorem projAt_bucketStep (guard : L → Bool) (key : L → κ) (dflt : L → V) (upd : L → V → V)
    (π : V → ℚ) (w : L → ℚ)
    (hupd : ∀ l v, guard l = true → π (upd l v) = π v + w l)
    (hdflt : ∀ l, guard l = true → π (dflt l) = 0)
    (m : List (κ × V)) (l : L) (j : κ) :
    projAt π (bucketStep guard key dflt upd m l) j
      = projAt π m j + (if guard l && decide (key l = j) then w l else 0) := by
  by_cases hg : guard l
  · by_cases hk : key l = j
    · subst hk
      simp only [bucketStep, hg, if_true, alUpd, projAt]
      rw [alGet_alSet, if_pos rfl]
      cases hget : alGet m (key l) with
      | none => simp [hget, hupd l _ hg, hdflt l hg, hg]
      | some v => simp [hget, hupd l _ hg, hg]
    · simp only [bucketStep, hg, if_true, alUpd, projAt]
      rw [alGet_alSet, if_neg hk]
      simp [hg, hk]
  · simp [bucketStep, hg, projAt]

theorem projAt_bucketFold (guard : L → Bool) (key : L → κ) (dflt : L → V) (upd : L → V → V)
    (π : V → ℚ) (w : L → ℚ)
    (hupd : ∀ l v, guard l = true → π (upd l v) = π v + w l)
    (hdflt : ∀ l, guard l = true → π (dflt l) = 0)
    (logs : List L) (j : κ) :
    projAt π (bucketFold guard key dflt upd logs) j
      = ((logs.filter (fun l => guard l && decide (key l = j))).map w).sum := by
  suffices h : ∀ (logs : List L) (m : List (κ × V)),
      projAt π (logs.foldl (bucketStep guard key dflt upd) m) j
        = projAt π m j + ((logs.filter (fun l => guard l && decide (key l = j))).map w).sum by
    simpa [bucketFold, projAt, alGet] using h logs []
  intro logs
  induction logs with
  | nil => intro m; simp
  | cons l ls ih =>
    intro m
    rw [List.foldl_cons, ih, projAt_bucketStep guard key dflt upd π w hupd hdflt]
    by_cases hc : guard l && decide (key l = j) <;> simp [hc, List.filter_cons] <;> ring

theorem bucketFold_keys_nodup (guard : L → Bool) (key : L → κ) (dflt : L → V)
    (upd : L → V → V) (logs : List L) :
    (alKeys (bucketFold guard key dflt upd logs)).Nodup := by
  suffices h : ∀ (logs : List L) (m : List (κ × V)), (alKeys m).Nodup →
      (alKeys (logs.foldl (bucketStep guard key dflt upd) m)).Nodup by
    exact h logs [] (by simp [alKeys])
  intro logs
  induction logs with
  | nil => intro m hm; simpa using hm
  | cons l ls ih =>
    intro m hm
    rw [List.foldl_cons]
    apply ih
    by_cases hg : guard l
    · simp only [bucketStep, hg, if_true, alUpd]
      exact alKeys_nodup_alSet _ _ _ hm
    · simpa [bucketStep, hg] using hm

theorem projAt_alUpd (π : V → ℚ) (m : List (κ × V)) (k j : κ) (d : V) (f : V → V) (q : ℚ)
    (hd : π d = 0) (hf : ∀ v, π (f v) = π v + q) :
    projAt π (alUpd m k d f) j = projAt π m j + (if k = j then q else 0) := by
  unfold projAt alUpd
  rw [alGet_alSet]
  by_cases hk : k = j
  · subst hk
    cases hget : alGet m k with
    | none => simp [hget, hf, hd]
    | some v => simp [hget, hf]
  · simp [hk]

theorem sum_map_ite_filter {α : Type} (l : List α) (p : α → Bool) (P : α → Prop)
    [DecidablePred P] (f : α → ℚ) :
    ((l.filter p).map (fun x => if P x then f x else 0)).sum
      = ((l.filter (fun x => p x && decide (P x))).map f).sum := by
  induction l with
  | nil => rfl
  | cons x xs ih =>
    by_cases hp : p x <;> by_cases hq : P x <;>
      simp [List.filter_cons, hp, hq, ih]

theorem projAt_of_mem_bucketFold (guard : L → Bool) (key : L → κ) (dflt : L → V)
    (upd : L → V → V) (π : V → ℚ) (w : L → ℚ)
    (hupd : ∀ l v, guard l = true → π (upd l v) = π v + w l)
    (hdflt : ∀ l, guard l = true → π (dflt l) = 0)
    (logs : List L) {j : κ} {v : V}
    (hmem : (j, v) ∈ bucketFold guard key dflt upd logs) :
    π v = ((logs.filter (fun l => guard l && decide (key l = j))).map w).sum := by
  have hget := alGet_eq_some_of_mem (bucketFold_keys_nodup guard key dflt upd logs) hmem
  have := projAt_bucketFold guard key dflt upd π w hupd hdflt logs j
  rw [projAt, hget] at this
  simpa using this

end BucketLemmas

/-- A joined task row of a completed task with a 10h estimate, used by the
concrete scenarios below. -/
def exTaskJoin : TasksJoin :=
  { name := "T", status := "Completed", estimate_hours := some 10,
    assigned_user_id := some "u1" }

/-- A one-hour work log of user u1 on project P1 and completed task T1. -/
def exLog1 : WorkLog :=
  { id := "l1", user_id := some "u1", project_id := some "P1", task_id := some "T1",
    start_time := 0, end_time := 3600000,
    users := some { name := "Uma" }, projects := some { name := "Alpha" },
    tasks := some exTaskJoin }

/-- A second one-hour log of the same user, project, task and day. -/
def exLog2 : WorkLog := { exLog1 with id := "l2", start_time := 7200000, end_time := 10800000 }

/-- Claim C1: for every accumulator state with a zero denominator the
calculators are claimed to return exactly 0, never NaN.  The guarded
calculators do, but the inline consistency calculator divides by the length
and the mean with no guard: on an empty daily-hours series (a user with no
logs in the window) and on an all-zero series it evaluates to NaN, which
Math.max(0, NaN) propagates. -/
theorem c1_consistency_nan_at_zero_denominator :
    jsConsistency [] = JsNum.nan ∧ jsConsistency [0, 0] = JsNum.nan := by
  constructor
  · simp [jsConsistency, jsDiv, jsSqrt, jsMul, jsAdd, jsSub, jsNeg, jsMax]
  · norm_num [jsConsistency, jsDiv, jsSqrt, jsMul, jsAdd, jsSub, jsNeg, jsMax,
      Real.sqrt_zero]

/-- Claim C2: a Completed task referenced by two in-window intervals is
counted twice, not once, in the completedTasks counters of the Summary
report's project bucket, the Project report's per-(project, user) bucket,
and the Work-Pattern report's day bucket: the source increments the counter
once per interval with no deduplication by task id. -/
theorem c2_completed_task_counted_per_interval :
    ((alGet (summaryProjectMap [exLog1, exLog2]) "P1").map (·.completedTasks) = some 2) ∧
    ((alGet ((alGet (paLogState [] [exLog1, exLog2]).userMap "P1").getD []) "u1").map
      (·.completedTasks) = some 2) ∧
    ((alGet (wpLogState [exLog1, exLog2]).dailyMap 0).map (·.completedTasks) = some 2) := by
  refine ⟨?_, ?_, ?_⟩
  · simp [summaryProjectMap, bucketFold, bucketStep, alUpd, alGet, alSet,
      summaryProjUpd, sProjAcc0, exLog1, exLog2, exTaskJoin, truthyStr, logTaskCompleted,
      setAdd, List.find?]
  · simp [paLogState, paLogStep, paProjectHoursStep, paUserMapStep, paTaskMapStep,
      paUserUpd, alUpd, alGet, alSet, alAdjust, exLog1, exLog2, exTaskJoin, truthyStr,
      logTaskCompleted, setAdd, List.find?]
  · simp [wpLogState, wpLogStep, wpHourlyStep, wpDayStep, wpWeekStep,
      wpUserProdStep, wpProjProdStep, wpHourlyUpd, wpDayUpd, wpWeekUpd, wpProdUpd,
      wpHourAcc0, wpDayAcc0, bucketStep, alUpd, alGet, alSet, exLog1, exLog2, exTaskJoin,
      truthyStr, logTaskCompleted, setAdd, List.find?, dayOfMs, hourOfMs, weekKeyOfMs,
      addTruthy]

/-- Claim C9: each report builder rethrows a failed fetch before anything
is aggregated (the sequential awaited fetches each check their error), so
no report value is produced unless every source list loaded; when all
fetches succeed the report is computed from the fully loaded lists only. -/
theorem c9_no_report_on_fetch_failure :
    (∀ (w : Window) (e : String),
      fetchTimeTrackingData w (.error e) = .error e) ∧
    (∀ (w : Window) (ls : List WorkLog),
      fetchTimeTrackingData w (.ok ls) = .ok (fetchTimeTrackingDataCore (windowFilter w ls))) ∧
    (∀ (w : Window) (e : String) (lr : Except String (List WorkLog))
        (tr : Except String (List Task)) (sb : String),
      fetchProjectAnalytics w (.error e) lr tr sb = .error e) ∧
    (∀ (w : Window) (ps : List Project) (e : String) (tr : Except String (List Task)) (sb : String),
      fetchProjectAnalytics w (.ok ps) (.error e) tr sb = .error e) ∧
    (∀ (w : Window) (ps : List Project) (ls : List WorkLog) (e : String) (sb : String),
      fetchProjectAnalytics w (.ok ps) (.ok ls) (.error e) sb = .error e) ∧
    (∀ (w : Window) (ps : List Project) (ls : List WorkLog) (ts : List Task) (sb : String),
      fetchProjectAnalytics w (.ok ps) (.ok ls) (.ok ts) sb
        = .ok (fetchProjectAnalyticsCore ps (windowFilter w ls) ts sb)) ∧
    (∀ (w : Window) (e : String) (lr : Except String (List WorkLog))
        (tr : Except String (List Task)) (sb : String),
      fetchUserAnalytics w (.error e) lr tr sb = .error e) ∧
    (∀ (w : Window) (us : List User) (e : String) (tr : Except String (List Task)) (sb : String),
      fetchUserAnalytics w (.ok us) (.error e) tr sb = .error e) ∧
    (∀ (w : Window) (us : List User) (ls : List WorkLog) (e : String) (sb : String),
      fetchUserAnalytics w (.ok us) (.ok ls) (.error e) sb = .error e) ∧
    (∀ (w : Window) (us : List User) (ls : List WorkLog) (ts : List Task) (sb : String),
      fetchUserAnalytics w (.ok us) (.ok ls) (.ok ts) sb
        = .ok (fetchUserAnalyticsCore us (windowFilter w ls) ts sb)) ∧
    (∀ (w : Window) (e : String),
      fetchWorkPatternData w (.error e) = .error e) ∧
    (∀ (w : Window) (ls : List WorkLog),
      fetchWorkPatternData w (.ok ls) = .ok (fetchWorkPatternDataCore (windowFilter w ls))) := by
  repeat' constructor
  all_goals intros
  all_goals rfl
/-- Claim C4: an interval is included in aggregation iff
startTime >= windowStart and endTime <= windowNow, and an interval
straddling the window start (start = windowStart - 1h,
end = windowStart + 1h) is excluded entirely: appending it to the fetched
rows leaves all four reports unchanged. -/
theorem c4_window_inclusion (w : Window) (raw : List WorkLog) (i : WorkLog)
    (h1 : i.start_time = w.startDate - 3600000) (h2 : i.end_time = w.startDate + 3600000)
    (projectsData : List Project) (allTasks : List Task) (usersData : List User)
    (sortBy : String) :
    (∀ log, log ∈ windowFilter w raw ↔
      log ∈ raw ∧ w.startDate ≤ log.start_time ∧ log.end_time ≤ w.now) ∧
    windowFilter w (raw ++ [i]) = windowFilter w raw ∧
    fetchTimeTrackingData w (.ok (raw ++ [i])) = fetchTimeTrackingData w (.ok raw) ∧
    fetchProjectAnalytics w (.ok projectsData) (.ok (raw ++ [i])) (.ok allTasks) sortBy
      = fetchProjectAnalytics w (.ok projectsData) (.ok raw) (.ok allTasks) sortBy ∧
    fetchUserAnalytics w (.ok usersData) (.ok (raw ++ [i])) (.ok allTasks) sortBy
      = fetchUserAnalytics w (.ok usersData) (.ok raw) (.ok allTasks) sortBy ∧
    fetchWorkPatternData w (.ok (raw ++ [i])) = fetchWorkPatternData w (.ok raw) := by
  have hmem : ∀ log, log ∈ windowFilter w raw ↔
      log ∈ raw ∧ w.startDate ≤ log.start_time ∧ log.end_time ≤ w.now := by
    intro log
    simp [windowFilter, List.mem_filter]
  have hexc : windowFilter w (raw ++ [i]) = windowFilter w raw := by
    unfold windowFilter
    rw [List.filter_append]
    have hlt : ¬ (w.startDate ≤ i.start_time) := by omega
    simp [List.filter, hlt]
  refine ⟨hmem, hexc, ?_, ?_, ?_, ?_⟩
  · exact congrArg
      (fun ls => (Except.ok (fetchTimeTrackingDataCore ls) : Except String SummaryReport)) hexc
  · exact congrArg
      (fun ls => (Except.ok (fetchProjectAnalyticsCore projectsData ls allTasks sortBy) :
        Except String (List ProjectData))) hexc
  · exact congrArg
      (fun ls => (Except.ok (fetchUserAnalyticsCore usersData ls allTasks sortBy) :
        Except String (List UserData))) hexc
  · exact congrArg
      (fun ls => (Except.ok (fetchWorkPatternDataCore ls) : Except String WorkPatternData)) hexc

/-- A work log straddling the window start of the window [0, 86400000]. -/
def exStraddle : WorkLog :=
  { id := "s", user_id := some "u1", project_id := some "P1", task_id := none,
    start_time := -3600000, end_time := 3600000, users := none, projects := none,
    tasks := none }

theorem c4_window_inclusion_witness :
    windowFilter ⟨0, 86400000⟩ ([] ++ [exStraddle]) = windowFilter ⟨0, 86400000⟩ [] ∧
    fetchTimeTrackingData ⟨0, 86400000⟩ (.ok ([] ++ [exStraddle]))
      = fetchTimeTrackingData ⟨0, 86400000⟩ (.ok []) :=
  have h := c4_window_inclusion ⟨0, 86400000⟩ [] exStraddle (by decide) (by decide)
    [] [] [] "hours"
  ⟨h.2.1, h.2.2.1⟩

theorem wpLogState_hourlyMap (logs : List WorkLog) :
    (wpLogState logs).hourlyMap = logs.foldl wpHourlyStep [] := by
  suffices h : ∀ (logs : List WorkLog) (st : WPLogState),
      ((logs.foldl wpLogStep st).hourlyMap) = logs.foldl wpHourlyStep st.hourlyMap by
    exact h logs _
  intro logs
  induction logs with
  | nil => intro st; rfl
  | cons l ls ih =>
    intro st
    rw [List.foldl_cons, List.foldl_cons]
    exact ih _

theorem wpLogState_dailyMap (logs : List WorkLog) :
    (wpLogState logs).dailyMap = logs.foldl wpDayStep [] := by
  suffices h : ∀ (logs : List WorkLog) (st : WPLogState),
      ((logs.foldl wpLogStep st).dailyMap) = logs.foldl wpDayStep st.dailyMap by
    exact h logs _
  intro logs
  induction logs with
  | nil => intro st; rfl
  | cons l ls ih =>
    intro st
    rw [List.foldl_cons, List.foldl_cons]
    exact ih _

theorem wpHourlyUpd_hours (log : WorkLog) (d : WHourAcc) :
    (wpHourlyUpd log d).hours = d.hours + hoursOf log := by
  unfold wpHourlyUpd
  rcases truthyStr log.user_id with _ | uid <;> simp

theorem wpHourlyUpd_actualHours (log : WorkLog) (d : WHourAcc) :
    (wpHourlyUpd log d).actualHours = d.actualHours + hoursOf log := by
  unfold wpHourlyUpd
  rcases truthyStr log.user_id with _ | uid <;> simp

/-- The hourly bucket's estimate contribution of one log
(0 when the joined estimate is null or 0, as the truthiness guard skips). -/
def estContrib (log : WorkLog) : ℚ :=
  match log.tasks.bind (·.estimate_hours) with
  | some e => if e = 0 then 0 else e
  | none => 0

theorem wpHourlyUpd_estimatedHours (log : WorkLog) (d : WHourAcc) :
    (wpHourlyUpd log d).estimatedHours = d.estimatedHours + estContrib log := by
  unfold wpHourlyUpd estContrib
  rcases truthyStr log.user_id with _ | uid <;>
    rcases log.tasks.bind (·.estimate_hours) with _ | e <;>
      simp [addTruthy] <;> split <;> simp

theorem uaLogState_userProjectMap (usersData : List User) (logs : List WorkLog) :
    (uaLogState usersData logs).userProjectMap = logs.foldl uaProjectMapStep [] := by
  suffices h : ∀ (logs : List WorkLog) (st : UALogState),
      ((logs.foldl uaLogStep st).userProjectMap)
        = logs.foldl uaProjectMapStep st.userProjectMap by
    exact h logs _
  intro logs
  induction logs with
  | nil => intro st; rfl
  | cons l ls ih =>
    intro st
    rw [List.foldl_cons, List.foldl_cons]
    exact ih _

theorem uaProjUpd_hours (log : WorkLog) (d : UProjAcc) :
    (uaProjUpd log d).hours = d.hours + hoursOf log := by
  unfold uaProjUpd
  rcases truthyStr log.task_id with _ | tid <;>
    by_cases hc : logTaskCompleted log <;> simp [hc]

theorem uaProjUpd_estimatedHours (log : WorkLog) (d : UProjAcc) :
    (uaProjUpd log d).estimatedHours = d.estimatedHours + estContrib log := by
  unfold uaProjUpd estContrib
  rcases truthyStr log.task_id with _ | tid <;>
    by_cases hc : logTaskCompleted log <;>
      rcases log.tasks.bind (·.estimate_hours) with _ | e <;>
        simp [hc, addTruthy] <;> split <;> simp

theorem uaUPMatch_eq (l : WorkLog) (uid pid : String) :
    ((((truthyStr l.user_id).isSome && (truthyStr l.project_id).isSome)
        && decide ((truthyStr l.user_id).getD "" = uid))
      && decide ((truthyStr l.project_id).getD "" = pid))
      = (decide (truthyStr l.user_id = some uid)
        && decide (truthyStr l.project_id = some pid)) := by
  rcases truthyStr l.user_id with _ | u <;> rcases truthyStr l.project_id with _ | p <;>
    simp

/-- The value of a projection of the per-(user, project) accumulator in the
nested userProjectMap equals the matching weight sum over the logs whose
truthy user id and truthy project id are the given pair, for any projection
that is zero on the fresh accumulator and grows by a per-log weight. -/
theorem uaUserProjectMap_proj (π : UProjAcc → ℚ) (w0 : WorkLog → ℚ)
    (hz : π uProjAcc0 = 0)
    (hupd : ∀ l v, π (uaProjUpd l v) = π v + w0 l)
    (usersData : List User) (workLogs : List WorkLog) (uid pid : String) :
    projAt π ((alGet (uaLogState usersData workLogs).userProjectMap uid).getD []) pid
      = ((workLogs.filter (fun l => decide (truthyStr l.user_id = some uid)
          && decide (truthyStr l.project_id = some pid))).map w0).sum := by
  rw [uaLogState_userProjectMap]
  have hfoldeq : workLogs.foldl uaProjectMapStep []
      = bucketFold
        (fun log : WorkLog =>
          (truthyStr log.user_id).isSome && (truthyStr log.project_id).isSome)
        (fun log => (truthyStr log.user_id).getD "")
        (fun _ => ([] : List (String × UProjAcc)))
        (fun log userProjects =>
          alUpd userProjects ((truthyStr log.project_id).getD "") uProjAcc0 (uaProjUpd log))
        workLogs := rfl
  have hfold := projAt_bucketFold
    (fun log : WorkLog =>
      (truthyStr log.user_id).isSome && (truthyStr log.project_id).isSome)
    (fun log => (truthyStr log.user_id).getD "")
    (fun _ => ([] : List (String × UProjAcc)))
    (fun log userProjects =>
      alUpd userProjects ((truthyStr log.project_id).getD "") uProjAcc0 (uaProjUpd log))
    (fun inner => projAt π inner pid)
    (fun l => if (truthyStr l.project_id).getD "" = pid then w0 l else 0)
    (fun l v _ => projAt_alUpd π v ((truthyStr l.project_id).getD "") pid uProjAcc0
      (uaProjUpd l) (w0 l) hz (hupd l))
    (fun _ _ => rfl) workLogs uid
  have hL : projAt π ((alGet (workLogs.foldl uaProjectMapStep []) uid).getD []) pid
      = projAt (fun inner => projAt π inner pid) (workLogs.foldl uaProjectMapStep []) uid := by
    cases h : alGet (workLogs.foldl uaProjectMapStep []) uid with
    | none =>
      simp only [projAt, h]
      simp [alGet]
    | some inner => simp [projAt, h]
  rw [hL, hfoldeq, hfold, sum_map_ite_filter]
  rw [List.filter_congr (fun l _ => uaUPMatch_eq l uid pid)]

theorem wpDayUpd_hours (log : WorkLog) (d : WDayAcc) :
    (wpDayUpd log d).hours = d.hours + hoursOf log := by
  unfold wpDayUpd
  rcases truthyStr log.user_id with _ | uid <;>
    rcases truthyStr log.project_id with _ | pid <;>
      by_cases hc : logTaskCompleted log <;>
        by_cases ht : (truthyStr log.task_id).isSome <;> simp [hc, ht]

theorem summaryDayUpd_hours (log : WorkLog) (d : DayAcc) :
    (summaryDayUpd log d).hours = d.hours + hoursOf log := by
  unfold summaryDayUpd
  rcases truthyStr log.user_id with _ | uid <;>
    rcases truthyStr log.project_id with _ | pid <;> simp

/-- A work log from 2025-01-01T09:00:00Z to 2025-01-01T11:30:00Z. -/
def exLog930 : WorkLog :=
  { id := "m", user_id := some "u1", project_id := some "P1", task_id := none,
    start_time := 1735722000000, end_time := 1735731000000,
    users := none, projects := none, tasks := none }

/-- Claim C5: durationHours is exactly (endTime - startTime) / 3600000 with
no rounding during accumulation, and the whole duration of an appended
interval lands in the hour bucket of its start hour and the day bucket of
its start date, and in no other bucket; the 09:00-11:30 interval yields
exactly 2.5 hours, all in hour bucket 9 and none in buckets 10 or 11. -/
theorem c5_duration_and_start_bucket_attribution :
    (∀ log : WorkLog, hoursOf log = ((log.end_time - log.start_time : ℤ) : ℚ) / 3600000) ∧
    (∀ (logs : List WorkLog) (l : WorkLog) (h : ℤ),
      projAt WHourAcc.hours ((wpLogState (logs ++ [l])).hourlyMap) h
        = projAt WHourAcc.hours ((wpLogState logs).hourlyMap) h
          + (if hourOfMs l.start_time = h then hoursOf l else 0)) ∧
    (∀ (logs : List WorkLog) (l : WorkLog) (d : ℤ),
      projAt WDayAcc.hours ((wpLogState (logs ++ [l])).dailyMap) d
        = projAt WDayAcc.hours ((wpLogState logs).dailyMap) d
          + (if dayOfMs l.start_time = d then hoursOf l else 0)) ∧
    hoursOf exLog930 = 5/2 ∧
    projAt WHourAcc.hours ((wpLogState [exLog930]).hourlyMap) 9 = 5/2 ∧
    projAt WHourAcc.hours ((wpLogState [exLog930]).hourlyMap) 10 = 0 ∧
    projAt WHourAcc.hours ((wpLogState [exLog930]).hourlyMap) 11 = 0 := by
  have hupdH : ∀ (l : WorkLog) (v : WHourAcc), (fun _ : WorkLog => true) l = true →
      WHourAcc.hours (wpHourlyUpd l v) = WHourAcc.hours v + hoursOf l :=
    fun l v _ => wpHourlyUpd_hours l v
  have hdfltH : ∀ l : WorkLog, (fun _ : WorkLog => true) l = true →
      WHourAcc.hours wpHourAcc0 = 0 :=
    fun _ _ => rfl
  have hourTotal : ∀ (logs : List WorkLog) (h : ℤ),
      projAt WHourAcc.hours ((wpLogState logs).hourlyMap) h
        = ((logs.filter (fun l => decide (hourOfMs l.start_time = h))).map hoursOf).sum := by
    intro logs h
    rw [wpLogState_hourlyMap]
    have := projAt_bucketFold (fun _ : WorkLog => true)
      (fun log => hourOfMs log.start_time) (fun _ => wpHourAcc0)
      wpHourlyUpd WHourAcc.hours hoursOf hupdH hdfltH logs h
    simpa [bucketFold, wpHourlyStep] using this
  have hupdD : ∀ (l : WorkLog) (v : WDayAcc), (fun _ : WorkLog => true) l = true →
      WDayAcc.hours (wpDayUpd l v) = WDayAcc.hours v + hoursOf l :=
    fun l v _ => wpDayUpd_hours l v
  have hdfltD : ∀ l : WorkLog, (fun _ : WorkLog => true) l = true →
      WDayAcc.hours wpDayAcc0 = 0 :=
    fun _ _ => rfl
  have dayTotal : ∀ (logs : List WorkLog) (d : ℤ),
      projAt WDayAcc.hours ((wpLogState logs).dailyMap) d
        = ((logs.filter (fun l => decide (dayOfMs l.start_time = d))).map hoursOf).sum := by
    intro logs d
    rw [wpLogState_dailyMap]
    have := projAt_bucketFold (fun _ : WorkLog => true)
      (fun log => dayOfMs log.start_time) (fun _ => wpDayAcc0)
      wpDayUpd WDayAcc.hours hoursOf hupdD hdfltD logs d
    simpa [bucketFold, wpDayStep] using this
  refine ⟨?_, ?_, ?_, ?_, ?_, ?_, ?_⟩
  · intro log
    norm_num [hoursOf]
  · intro logs l h
    rw [hourTotal, hourTotal, List.filter_append]
    by_cases hk : hourOfMs l.start_time = h <;> simp [List.filter, hk]
  · intro logs l d
    rw [dayTotal, dayTotal, List.filter_append]
    by_cases hk : dayOfMs l.start_time = d <;> simp [List.filter, hk]
  · norm_num [hoursOf, exLog930]
  · rw [hourTotal]
    have h9 : hourOfMs (1735722000000 : ℤ) = 9 := by decide
    norm_num [exLog930, List.filter, h9, hoursOf]
  · rw [hourTotal]
    have h9 : hourOfMs (1735722000000 : ℤ) = 9 := by decide
    simp [exLog930, List.filter, h9]
  · rw [hourTotal]
    have h9 : hourOfMs (1735722000000 : ℤ) = 9 := by decide
    simp [exLog930, List.filter, h9]
theorem jsFold_sq (μ : ℝ) (l : List ℝ) (s : ℝ) :
    l.foldl (fun acc h =>
        jsAdd acc (jsMul (jsSub (.num h) (.num μ)) (jsSub (.num h) (.num μ)))) (.num s)
      = .num (s + ((l.map (fun h => (h - μ) ^ 2)).sum)) := by
  induction l generalizing s with
  | nil => simp
  | cons x xs ih =>
    rw [List.foldl_cons]
    have hstep : jsAdd (.num s) (jsMul (jsSub (.num x) (.num μ)) (jsSub (.num x) (.num μ)))
        = JsNum.num (s + (x - μ) ^ 2) := by
      simp [jsAdd, jsMul, jsSub, jsNeg]
      ring
    rw [hstep, ih]
    simp [List.map_cons, List.sum_cons]
    ring

theorem jsConsistency_of_mean_pos (l : List ℝ) (hne : l ≠ []) (hmean : 0 < specMean l) :
    jsConsistency l = JsNum.num (specConsistency l) := by
  have hn : (l.length : ℝ) ≠ 0 := by
    have := List.length_pos.mpr hne
    positivity
  have hμ : specMean l ≠ 0 := ne_of_gt hmean
  have hv : 0 ≤ specVariance l := by
    unfold specVariance
    apply div_nonneg _ (by positivity)
    apply List.sum_nonneg
    intro x hx
    obtain ⟨y, _, rfl⟩ := List.mem_map.mp hx
    positivity
  simp only [jsConsistency]
  have havg : jsDiv (.num l.sum) (.num l.length) = JsNum.num (specMean l) := by
    simp [jsDiv, hn, specMean]
  rw [havg, jsFold_sq]
  have hvar : jsDiv (JsNum.num (0 + ((l.map (fun h => (h - specMean l) ^ 2)).sum)))
      (.num l.length) = JsNum.num (specVariance l) := by
    simp [jsDiv, hn, specVariance]
  rw [hvar]
  have hsq : jsSqrt (JsNum.num (specVariance l)) = JsNum.num (specStddev l) := by
    simp [jsSqrt, not_lt.mpr hv, specStddev]
  rw [hsq]
  have hdiv : jsDiv (JsNum.num (specStddev l)) (JsNum.num (specMean l))
      = JsNum.num (specStddev l / specMean l) := by
    simp [jsDiv, hμ]
  rw [hdiv]
  simp only [jsMul, jsSub, jsNeg, jsAdd, jsMax, specConsistency, JsNum.num.injEq,
    ← sub_eq_add_neg]

/-- Claim C6: for a non-empty daily-hours series with positive mean, the
inline consistency computation equals
max(0, 100 - (population stddev / mean) * 100) exactly (no NaN/Infinity is
hit), the value lies in [0, 100], and a single-point series scores 100. -/
theorem c6_consistency_formula_and_bounds (l : List ℝ) (hne : l ≠ [])
    (hmean : 0 < specMean l) :
    jsConsistency l = JsNum.num (specConsistency l) ∧
    0 ≤ specConsistency l ∧ specConsistency l ≤ 100 ∧
    (l.length = 1 → specConsistency l = 100) := by
  refine ⟨jsConsistency_of_mean_pos l hne hmean, le_max_left 0 _, ?_, ?_⟩
  · apply max_le (by norm_num)
    have ht : 0 ≤ specStddev l / specMean l * 100 := by
      have h1 : 0 ≤ specStddev l := Real.sqrt_nonneg _
      positivity
    linarith
  · intro hlen
    obtain ⟨x, rfl⟩ := List.length_eq_one.mp hlen
    have hx : specMean [x] = x := by norm_num [specMean]
    norm_num [specConsistency, specStddev, specVariance, hx]

theorem c6_consistency_witness :
    ([2, 2] : List ℝ) ≠ [] ∧ 0 < specMean ([2, 2] : List ℝ) ∧
    jsConsistency [2, 2] = JsNum.num (specConsistency ([2, 2] : List ℝ)) ∧
    0 ≤ specConsistency ([2, 2] : List ℝ) ∧ specConsistency ([2, 2] : List ℝ) ≤ 100 := by
  have hne : ([2, 2] : List ℝ) ≠ [] := by simp
  have hmean : 0 < specMean ([2, 2] : List ℝ) := by norm_num [specMean]
  have h := c6_consistency_formula_and_bounds [2, 2] hne hmean
  exact ⟨hne, hmean, h.1, h.2.1, h.2.2.1⟩
/-- The exact, unrounded aggregate of all durations. -/
def exactTotalHours (workLogs : List WorkLog) : ℚ := (workLogs.map hoursOf).sum

/-- The exact, unrounded per-day aggregate of durations. -/
def exactDayHours (workLogs : List WorkLog) (d : ℤ) : ℚ :=
  ((workLogs.filter (fun log => decide (dayOfMs log.start_time = d))).map hoursOf).sum

theorem summaryDailyMap_hours_of_mem {workLogs : List WorkLog} {d : ℤ} {v : DayAcc}
    (hmem : (d, v) ∈ summaryDailyMap workLogs) :
    v.hours = exactDayHours workLogs d := by
  have h := projAt_of_mem_bucketFold (fun _ : WorkLog => true)
    (fun log => dayOfMs log.start_time) (fun _ => dayAcc0) summaryDayUpd
    DayAcc.hours hoursOf (fun l v _ => summaryDayUpd_hours l v) (fun _ _ => rfl)
    workLogs hmem
  simpa [exactDayHours] using h

theorem wpDailyMap_hours_of_mem {workLogs : List WorkLog} {d : ℤ} {v : WDayAcc}
    (hmem : (d, v) ∈ (wpLogState workLogs).dailyMap) :
    v.hours = exactDayHours workLogs d := by
  rw [wpLogState_dailyMap] at hmem
  have h := projAt_of_mem_bucketFold (fun _ : WorkLog => true)
    (fun log => dayOfMs log.start_time) (fun _ => wpDayAcc0) wpDayUpd
    WDayAcc.hours hoursOf (fun l v _ => wpDayUpd_hours l v) (fun _ _ => rfl)
    workLogs hmem
  simpa [exactDayHours] using h

/-- Claim C7 (amended): each per-day row's hours equal the 2-decimal
rounding of the exact per-day aggregate, but the Summary and Work-Pattern
top-level totalHours are computed from the already-rounded per-day values:
they equal round2 of the sum of the rounded day hours, not round2 of the
exact aggregate. -/
theorem c7_rounding_at_assembly_amended (workLogs : List WorkLog) :
    ((fetchTimeTrackingDataCore workLogs).totalHours
      = jsRound2 ((((fetchTimeTrackingDataCore workLogs).dailyData).map (·.hours)).sum)) ∧
    (∀ e ∈ (fetchTimeTrackingDataCore workLogs).dailyData,
      e.hours = jsRound2 (exactDayHours workLogs e.date)) ∧
    ((fetchWorkPatternDataCore workLogs).teamMetrics.totalHours
      = jsRound2 ((((fetchWorkPatternDataCore workLogs).dailyPattern).map (·.totalHours)).sum)) ∧
    (∀ e ∈ (fetchWorkPatternDataCore workLogs).dailyPattern,
      e.totalHours = jsRound2 (exactDayHours workLogs e.day)) := by
  refine ⟨rfl, ?_, rfl, ?_⟩
  · intro e he
    have he' := mem_jsSortBy.mp he
    obtain ⟨p, hp, rfl⟩ := List.mem_map.mp he'
    have := summaryDailyMap_hours_of_mem hp
    simp [this]
  · intro e he
    have he' := mem_jsSortBy.mp he
    obtain ⟨p, hp, rfl⟩ := List.mem_map.mp he'
    have := wpDailyMap_hours_of_mem hp
    simp [this]

/-- A 1.004-hour log on day 0. -/
def exLogD1 : WorkLog :=
  { id := "d1", user_id := none, project_id := none, task_id := none,
    start_time := 0, end_time := 3614400, users := none, projects := none, tasks := none }

/-- A 1.004-hour log on day 1. -/
def exLogD2 : WorkLog := { exLogD1 with id := "d2", start_time := 86400000, end_time := 90014400 }

/-- Claim C7 counterexample: two days of exactly 1.004 hours each round to
1.00 per day; the Summary totalHours is round2(1 + 1) = 2, while round2 of
the exact unrounded aggregate 2.008 is 2.01. -/
theorem c7_total_hours_double_rounding_counterexample :
    (fetchTimeTrackingDataCore [exLogD1, exLogD2]).totalHours = 2 ∧
    jsRound2 (exactTotalHours [exLogD1, exLogD2]) = 201/100 ∧
    (fetchTimeTrackingDataCore [exLogD1, exLogD2]).totalHours
      ≠ jsRound2 (exactTotalHours [exLogD1, exLogD2]) := by
  have h1 : (fetchTimeTrackingDataCore [exLogD1, exLogD2]).totalHours = 2 := by
    simp [fetchTimeTrackingDataCore, summaryDailyArray, summaryDailyMap, bucketFold,
      bucketStep, alUpd, alGet, alSet, summaryDayUpd, dayAcc0, exLogD1, exLogD2,
      truthyStr, dayOfMs, hoursOf, jsSortBy, insertSorted, jsRound2, List.find?]
    norm_num
  have h2 : jsRound2 (exactTotalHours [exLogD1, exLogD2]) = 201/100 := by
    simp [exactTotalHours, hoursOf, exLogD1, exLogD2]
    norm_num [jsRound2]
  refine ⟨h1, h2, ?_⟩
  rw [h1, h2]
  norm_num
/-- A one-hour log on project P1 ("Alpha"), day 0, no user and no task. -/
def exLogA : WorkLog :=
  { id := "a", user_id := none, project_id := some "P1", task_id := none,
    start_time := 0, end_time := 3600000, users := none,
    projects := some { name := "Alpha" }, tasks := none }

/-- The same log shape on project P2 ("Beta"). -/
def exLogB : WorkLog :=
  { exLogA with id := "b", project_id := some "P2", projects := some { name := "Beta" } }

theorem c7_rounding_at_assembly_amended_witness :
    ({ date := 0, hours := 1, users := 0, projects := 1 } : DailyData)
        ∈ (fetchTimeTrackingDataCore [exLogA]).dailyData ∧
    ({ date := 0, hours := 1, users := 0, projects := 1 } : DailyData).hours
      = jsRound2 (exactDayHours [exLogA] 0) := by
  have hmem : ({ date := 0, hours := 1, users := 0, projects := 1 } : DailyData)
      ∈ (fetchTimeTrackingDataCore [exLogA]).dailyData := by
    simp [fetchTimeTrackingDataCore, summaryDailyArray, summaryDailyMap, bucketFold,
      bucketStep, alUpd, alGet, alSet, summaryDayUpd, dayAcc0, exLogA, truthyStr,
      dayOfMs, hoursOf, setAdd, jsSortBy, insertSorted, jsRound2, List.find?]
    norm_num
  exact ⟨hmem, (c7_rounding_at_assembly_amended [exLogA]).2.1 _ hmem⟩

/-- Claim C3: the Summary report depends on the order of the fetched
work-log rows, not only on their multiset: with two projects tied at one
hour each, the two orders of the same two logs produce the project summary
rows in different orders (ties in the hours sort are broken by Map
insertion order, which follows input order), so the reports differ. -/
theorem c3_report_depends_on_input_order :
    ([exLogA, exLogB].Perm [exLogB, exLogA]) ∧
    ((fetchTimeTrackingDataCore [exLogA, exLogB]).projectSummary.map (·.projectName)
      = ["Alpha", "Beta"]) ∧
    ((fetchTimeTrackingDataCore [exLogB, exLogA]).projectSummary.map (·.projectName)
      = ["Beta", "Alpha"]) ∧
    fetchTimeTrackingDataCore [exLogA, exLogB] ≠ fetchTimeTrackingDataCore [exLogB, exLogA] := by
  have h1 : (fetchTimeTrackingDataCore [exLogA, exLogB]).projectSummary.map (·.projectName)
      = ["Alpha", "Beta"] := by
    simp [fetchTimeTrackingDataCore, summaryProjectSummary, summaryProjectMap, bucketFold,
      bucketStep, alUpd, alGet, alSet, summaryProjUpd, sProjAcc0, exLogA, exLogB,
      truthyStr, logTaskCompleted, setAdd, hoursOf, jsSortBy, insertSorted, jsRound2,
      strOr, List.find?]
  have h2 : (fetchTimeTrackingDataCore [exLogB, exLogA]).projectSummary.map (·.projectName)
      = ["Beta", "Alpha"] := by
    simp [fetchTimeTrackingDataCore, summaryProjectSummary, summaryProjectMap, bucketFold,
      bucketStep, alUpd, alGet, alSet, summaryProjUpd, sProjAcc0, exLogA, exLogB,
      truthyStr, logTaskCompleted, setAdd, hoursOf, jsSortBy, insertSorted, jsRound2,
      strOr, List.find?]
  refine ⟨List.Perm.swap exLogB exLogA [], h1, h2, ?_⟩
  intro h
  have hc := congrArg (fun r : SummaryReport => r.projectSummary.map (·.projectName)) h
  simp only [] at hc
  rw [h1, h2] at hc
  simp at hc
section MoreAListLemmas

variable {κ V : Type} [DecidableEq κ]

theorem mem_alSet {m : List (κ × V)} {k : κ} {v : V} {q : κ × V}
    (h : q ∈ alSet m k v) : q = (k, v) ∨ q ∈ m := by
  induction m with
  | nil => simpa [alSet] using h
  | cons p rest ih =>
    simp only [alSet] at h
    by_cases hpk : p.1 = k
    · rw [if_pos hpk] at h
      rcases List.mem_cons.mp h with h | h
      · exact .inl h
      · exact .inr (.tail _ h)
    · rw [if_neg hpk] at h
      rcases List.mem_cons.mp h with h | h
      · exact .inr (h ▸ List.mem_cons_self p rest)
      · rcases ih h with h | h
        · exact .inl h
        · exact .inr (.tail _ h)

theorem mem_alAdjust {m : List (κ × V)} {k : κ} {f : V → V} {q : κ × V}
    (h : q ∈ alAdjust m k f) : q ∈ m ∨ ∃ w, (k, w) ∈ m ∧ q = (k, f w) := by
  induction m with
  | nil => simpa [alAdjust] using h
  | cons p rest ih =>
    simp only [alAdjust] at h
    by_cases hpk : p.1 = k
    · rw [if_pos hpk] at h
      rcases List.mem_cons.mp h with h | h
      · refine .inr ⟨p.2, ?_, h⟩
        have : p = (k, p.2) := by
          cases p
          simp_all
        exact this ▸ List.mem_cons_self p rest
      · exact .inl (.tail _ h)
    · rw [if_neg hpk] at h
      rcases List.mem_cons.mp h with h | h
      · exact .inl (h ▸ List.mem_cons_self p rest)
      · rcases ih h with h | ⟨w, hw, hq⟩
        · exact .inl (.tail _ h)
        · exact .inr ⟨w, .tail _ hw, hq⟩

theorem mem_alKeys_alSet (m : List (κ × V)) (k key : κ) (v : V) :
    k ∈ alKeys (alSet m key v) ↔ k ∈ alKeys m ∨ k = key := by
  rw [alKeys_alSet]
  by_cases h : key ∈ alKeys m
  · simp only [h, if_true]
    constructor
    · exact .inl
    · rintro (hk | rfl) <;> [exact hk; exact h]
  · simp [h]

theorem find?_map_const {α β : Type} (l : List α) (p : α → Bool) (F : α → β) (c : β)
    (hc : ∀ x ∈ l, p x = true → F x = c) :
    (l.find? p).map F = if l.any p = true then some c else none := by
  cases hf : l.find? p with
  | none =>
    have hnone := List.find?_eq_none.mp hf
    have hany : l.any p = false := by
      rw [List.any_eq_false]
      exact hnone
    simp [hany]
  | some a =>
    have hpa := List.find?_some hf
    have ha := List.mem_of_find?_eq_some hf
    have hany : l.any p = true := List.any_eq_true.mpr ⟨a, ha, hpa⟩
    simp [hany, hc a ha hpa]

end MoreAListLemmas

/-- The project's task count from the full task table (window-independent). -/
def projectTaskCount (allTasks : List Task) (pid : String) : Nat :=
  (allTasks.filter (fun task => task.project_id = pid)).length

/-- The project's completed-task count from the full task table. -/
def projectCompletedCount (allTasks : List Task) (pid : String) : Nat :=
  ((allTasks.filter (fun task => task.project_id = pid)).filter
    (fun task => task.status = "Completed")).length

/-- The project's estimated hours from the full task table. -/
def projectEstimatedHours (allTasks : List Task) (pid : String) : ℚ :=
  ((allTasks.filter (fun task => task.project_id = pid)).map
    (fun task => qOr task.estimate_hours 0)).sum

theorem paMetricsFor_taskCount (allTasks : List Task) (workLogs : List WorkLog)
    (um : List (String × List (String × PUAcc))) (tm : List (String × PTAcc))
    (k : String) (pd : ProjectData) :
    (paMetricsFor allTasks workLogs um tm k pd).taskCount = projectTaskCount allTasks k := rfl

theorem paMetricsFor_completedTasks (allTasks : List Task) (workLogs : List WorkLog)
    (um : List (String × List (String × PUAcc))) (tm : List (String × PTAcc))
    (k : String) (pd : ProjectData) :
    (paMetricsFor allTasks workLogs um tm k pd).completedTasks
      = projectCompletedCount allTasks k := rfl

theorem paMetricsFor_estimatedHours (allTasks : List Task) (workLogs : List WorkLog)
    (um : List (String × List (String × PUAcc))) (tm : List (String × PTAcc))
    (k : String) (pd : ProjectData) :
    (paMetricsFor allTasks workLogs um tm k pd).estimatedHours
      = projectEstimatedHours allTasks k := rfl

theorem paMetricsFor_totalHours (allTasks : List Task) (workLogs : List WorkLog)
    (um : List (String × List (String × PUAcc))) (tm : List (String × PTAcc))
    (k : String) (pd : ProjectData) :
    (paMetricsFor allTasks workLogs um tm k pd).totalHours = pd.totalHours := rfl

theorem paMetricsFor_id (allTasks : List Task) (workLogs : List WorkLog)
    (um : List (String × List (String × PUAcc))) (tm : List (String × PTAcc))
    (k : String) (pd : ProjectData) :
    (paMetricsFor allTasks workLogs um tm k pd).id = pd.id := rfl

theorem paMetricsFor_efficiency (allTasks : List Task) (workLogs : List WorkLog)
    (um : List (String × List (String × PUAcc))) (tm : List (String × PTAcc))
    (k : String) (pd : ProjectData) :
    (paMetricsFor allTasks workLogs um tm k pd).efficiency
      = if 0 < projectEstimatedHours allTasks k then
          (pd.totalHours / projectEstimatedHours allTasks k) * 100
        else 0 := rfl

theorem paMetricsFor_idem (allTasks : List Task) (workLogs : List WorkLog)
    (um : List (String × List (String × PUAcc))) (tm : List (String × PTAcc))
    (k : String) (pd : ProjectData) :
    paMetricsFor allTasks workLogs um tm k (paMetricsFor allTasks workLogs um tm k pd)
      = paMetricsFor allTasks workLogs um tm k pd := rfl

theorem initialProjectMap_id (ps : List Project) :
    ∀ q ∈ initialProjectMap ps, q.2.id = q.1 := by
  suffices h : ∀ (ps : List Project) (m0 : List (String × ProjectData)),
      (∀ q ∈ m0, q.2.id = q.1) →
      ∀ q ∈ ps.foldl (fun m project => alSet m project.id (initProjectData project)) m0,
        q.2.id = q.1 by
    exact h ps [] (by simp)
  intro ps
  induction ps with
  | nil => intro m0 h0; simpa using h0
  | cons p rest ih =>
    intro m0 h0
    rw [List.foldl_cons]
    apply ih
    intro q hq
    rcases mem_alSet hq with rfl | hq'
    · rfl
    · exact h0 q hq'

theorem initialProjectMap_keys_nodup (ps : List Project) :
    (alKeys (initialProjectMap ps)).Nodup := by
  suffices h : ∀ (ps : List Project) (m0 : List (String × ProjectData)),
      (alKeys m0).Nodup →
      (alKeys (ps.foldl (fun m project => alSet m project.id (initProjectData project)) m0)).Nodup by
    exact h ps [] (by simp [alKeys])
  intro ps
  induction ps with
  | nil => intro m0 h0; simpa using h0
  | cons p rest ih =>
    intro m0 h0
    rw [List.foldl_cons]
    exact ih _ (alKeys_nodup_alSet _ _ _ h0)

theorem mem_alKeys_initialProjectMap (ps : List Project) (k : String) :
    k ∈ alKeys (initialProjectMap ps) ↔ ps.any (fun p => decide (p.id = k)) = true := by
  suffices h : ∀ (ps : List Project) (m0 : List (String × ProjectData)),
      (k ∈ alKeys (ps.foldl (fun m project => alSet m project.id (initProjectData project)) m0)
        ↔ k ∈ alKeys m0 ∨ ps.any (fun p => decide (p.id = k)) = true) by
    rw [initialProjectMap, h ps []]
    simp [alKeys]
  intro ps
  induction ps with
  | nil => intro m0; simp
  | cons p rest ih =>
    intro m0
    rw [List.foldl_cons, ih, mem_alKeys_alSet]
    simp only [List.any_cons]
    constructor
    · rintro ((hk | rfl) | hk)
      · exact .inl hk
      · refine .inr ?_
        simp
      · exact .inr (by simp [hk])
    · rintro (hk | hk)
      · exact .inl (.inl hk)
      · rcases Bool.or_eq_true_iff.mp hk with hk | hk
        · exact .inl (.inr (of_decide_eq_true hk).symm)
        · exact .inr hk
theorem alKeys_paProjectHoursStep (m : List (String × ProjectData)) (log : WorkLog) :
    alKeys (paProjectHoursStep m log) = alKeys m := by
  unfold paProjectHoursStep
  rcases truthyStr log.project_id with _ | pid
  · rfl
  · exact alKeys_alAdjust m pid _

theorem paLogState_projectMap_keys (ps : List Project) (logs : List WorkLog) :
    alKeys (paLogState ps logs).projectMap = alKeys (initialProjectMap ps) := by
  suffices h : ∀ (logs : List WorkLog) (st : PALogState),
      alKeys ((logs.foldl paLogStep st).projectMap) = alKeys st.projectMap by
    exact h logs _
  intro logs
  induction logs with
  | nil => intro st; rfl
  | cons l ls ih =>
    intro st
    rw [List.foldl_cons]
    rw [ih]
    exact alKeys_paProjectHoursStep st.projectMap l

theorem paLogState_projectMap_id (ps : List Project) (logs : List WorkLog) :
    ∀ q ∈ (paLogState ps logs).projectMap, q.2.id = q.1 := by
  suffices h : ∀ (logs : List WorkLog) (st : PALogState),
      (∀ q ∈ st.projectMap, q.2.id = q.1) →
      ∀ q ∈ (logs.foldl paLogStep st).projectMap, q.2.id = q.1 by
    exact h logs _ (initialProjectMap_id ps)
  intro logs
  induction logs with
  | nil => intro st h0; simpa using h0
  | cons l ls ih =>
    intro st h0
    rw [List.foldl_cons]
    apply ih
    intro q hq
    have hq' : q ∈ paProjectHoursStep st.projectMap l := hq
    unfold paProjectHoursStep at hq'
    rcases hT : truthyStr l.project_id with _ | pid
    · rw [hT] at hq'
      exact h0 q hq'
    · rw [hT] at hq'
      rcases mem_alAdjust hq' with h | ⟨w, hw, rfl⟩
      · exact h0 q h
      · simpa using h0 (pid, w) hw

theorem alKeys_paMetricsFold (allTasks : List Task) (workLogs : List WorkLog)
    (um : List (String × List (String × PUAcc))) (tm : List (String × PTAcc))
    (ps : List Project) (m0 : List (String × ProjectData)) :
    alKeys (paMetricsFold allTasks workLogs um tm ps m0) = alKeys m0 := by
  induction ps generalizing m0 with
  | nil => rfl
  | cons p rest ih =>
    simp only [paMetricsFold, List.foldl_cons] at *
    rw [ih]
    exact alKeys_alAdjust m0 p.id _

theorem paMetricsFold_id (allTasks : List Task) (workLogs : List WorkLog)
    (um : List (String × List (String × PUAcc))) (tm : List (String × PTAcc))
    (ps : List Project) (m0 : List (String × ProjectData))
    (h0 : ∀ q ∈ m0, q.2.id = q.1) :
    ∀ q ∈ paMetricsFold allTasks workLogs um tm ps m0, q.2.id = q.1 := by
  induction ps generalizing m0 with
  | nil => simpa [paMetricsFold] using h0
  | cons p rest ih =>
    simp only [paMetricsFold, List.foldl_cons] at *
    apply ih
    intro q hq
    rcases mem_alAdjust hq with h | ⟨w, hw, rfl⟩
    · exact h0 q h
    · simpa [paMetricsFor_id] using h0 (p.id, w) hw

theorem alGet_paMetricsFold (allTasks : List Task) (workLogs : List WorkLog)
    (um : List (String × List (String × PUAcc))) (tm : List (String × PTAcc))
    (ps : List Project) (m0 : List (String × ProjectData)) (k : String) :
    alGet (paMetricsFold allTasks workLogs um tm ps m0) k
      = if ps.any (fun p => decide (p.id = k)) = true then
          (alGet m0 k).map (paMetricsFor allTasks workLogs um tm k)
        else alGet m0 k := by
  induction ps generalizing m0 with
  | nil => simp [paMetricsFold]
  | cons p rest ih =>
    simp only [paMetricsFold, List.foldl_cons] at *
    rw [ih]
    by_cases hp : p.id = k
    · subst hp
      rw [alGet_alAdjust, if_pos rfl]
      by_cases hr : rest.any (fun q => decide (q.id = p.id)) = true
      · rw [if_pos hr, if_pos (by simp [hr])]
        cases hget : alGet m0 p.id with
        | none => simp
        | some v => simp [paMetricsFor_idem]
      · rw [if_neg hr, if_pos (by simp)]
    · have hcons : (p :: rest).any (fun q => decide (q.id = k))
          = rest.any (fun q => decide (q.id = k)) := by
        simp [List.any_cons, hp]
      rw [alGet_alAdjust, if_neg hp, hcons]

theorem fetchProjectAnalyticsCore_row {ps : List Project} {workLogs : List WorkLog}
    {allTasks : List Task} {sortBy : String} {r : ProjectData}
    (hr : r ∈ fetchProjectAnalyticsCore ps workLogs allTasks sortBy) :
    ∃ v0 : ProjectData,
      alGet ((paLogState ps workLogs).projectMap) r.id = some v0 ∧
      r = paMetricsFor allTasks workLogs (paLogState ps workLogs).userMap
        (paLogState ps workLogs).taskMap r.id v0 ∧
      ps.any (fun p => decide (p.id = r.id)) = true := by
  have hr' := mem_jsSortBy.mp hr
  obtain ⟨q, hq, rfl⟩ := List.mem_map.mp hr'
  have hkeysF : alKeys (paMetricsFold allTasks workLogs (paLogState ps workLogs).userMap
        (paLogState ps workLogs).taskMap ps (paLogState ps workLogs).projectMap)
      = alKeys ((paLogState ps workLogs).projectMap) :=
    alKeys_paMetricsFold _ _ _ _ _ _
  have hnd : (alKeys (paMetricsFold allTasks workLogs (paLogState ps workLogs).userMap
      (paLogState ps workLogs).taskMap ps (paLogState ps workLogs).projectMap)).Nodup := by
    rw [hkeysF, paLogState_projectMap_keys]
    exact initialProjectMap_keys_nodup ps
  have hget := alGet_eq_some_of_mem hnd hq
  have hkmem : q.1 ∈ alKeys ((paLogState ps workLogs).projectMap) := by
    have hsome : q.1 ∈ alKeys (paMetricsFold allTasks workLogs (paLogState ps workLogs).userMap
        (paLogState ps workLogs).taskMap ps (paLogState ps workLogs).projectMap) :=
      (alGet_isSome_iff _ _).mp (by simp [hget])
    rwa [hkeysF] at hsome
  have hany : ps.any (fun p => decide (p.id = q.1)) = true := by
    rw [← mem_alKeys_initialProjectMap]
    rwa [paLogState_projectMap_keys] at hkmem
  rw [alGet_paMetricsFold, if_pos hany] at hget
  have hid : q.2.id = q.1 :=
    paMetricsFold_id allTasks workLogs _ _ ps _ (paLogState_projectMap_id ps workLogs) q hq
  cases hv : alGet ((paLogState ps workLogs).projectMap) q.1 with
  | none =>
    rw [hv] at hget
    simp at hget
  | some v0 =>
    rw [hv] at hget
    have hq2 : paMetricsFor allTasks workLogs (paLogState ps workLogs).userMap
        (paLogState ps workLogs).taskMap q.1 v0 = q.2 := by
      simpa using hget
    refine ⟨v0, ?_, ?_, ?_⟩
    · rw [hid]
      exact hv
    · rw [hid]
      exact hq2.symm
    · rw [hid]
      exact hany
theorem fetchProjectAnalyticsCore_any_id (ps : List Project) (workLogs : List WorkLog)
    (allTasks : List Task) (sortBy : String) (pid : String) :
    (fetchProjectAnalyticsCore ps workLogs allTasks sortBy).any (fun r => decide (r.id = pid))
      = ps.any (fun p => decide (p.id = pid)) := by
  by_cases hb : ps.any (fun p => decide (p.id = pid)) = true
  · rw [hb, List.any_eq_true]
    have hkmem : pid ∈ alKeys ((paLogState ps workLogs).projectMap) := by
      rw [paLogState_projectMap_keys, mem_alKeys_initialProjectMap]
      exact hb
    have hkmemF : pid ∈ alKeys (paMetricsFold allTasks workLogs
        (paLogState ps workLogs).userMap (paLogState ps workLogs).taskMap ps
        (paLogState ps workLogs).projectMap) := by
      rwa [alKeys_paMetricsFold]
    obtain ⟨v, hv⟩ := Option.isSome_iff_exists.mp ((alGet_isSome_iff _ _).mpr hkmemF)
    have hmemF := mem_of_alGet_eq_some hv
    have hid : v.id = pid :=
      paMetricsFold_id allTasks workLogs _ _ ps _ (paLogState_projectMap_id ps workLogs)
        (pid, v) hmemF
    refine ⟨v, ?_, by simp [hid]⟩
    exact mem_jsSortBy.mpr (List.mem_map.mpr ⟨(pid, v), hmemF, rfl⟩)
  · have hb' : ps.any (fun p => decide (p.id = pid)) = false := by
      simpa using hb
    rw [hb', List.any_eq_false]
    intro r hr hdec
    obtain ⟨v0, -, -, h3⟩ := fetchProjectAnalyticsCore_row hr
    rw [of_decide_eq_true hdec] at h3
    rw [h3] at hb'
    exact Bool.true_eq_false.mp hb'

theorem core_find_static (ps : List Project) (workLogs : List WorkLog) (allTasks : List Task)
    (sortBy : String) (pid : String) :
    ((fetchProjectAnalyticsCore ps workLogs allTasks sortBy).find?
        (fun r => decide (r.id = pid))).map
        (fun r => (r.taskCount, r.completedTasks, r.estimatedHours))
      = if ps.any (fun p => decide (p.id = pid)) = true then
          some (projectTaskCount allTasks pid, projectCompletedCount allTasks pid,
            projectEstimatedHours allTasks pid)
        else none := by
  have hc : ∀ r ∈ fetchProjectAnalyticsCore ps workLogs allTasks sortBy,
      (decide (r.id = pid)) = true →
      (r.taskCount, r.completedTasks, r.estimatedHours)
        = (projectTaskCount allTasks pid, projectCompletedCount allTasks pid,
            projectEstimatedHours allTasks pid) := by
    intro r hr hpr
    obtain ⟨v0, hget, hreq, hany⟩ := fetchProjectAnalyticsCore_row hr
    rw [of_decide_eq_true hpr] at hreq
    rw [hreq]
    simp [paMetricsFor_taskCount, paMetricsFor_completedTasks, paMetricsFor_estimatedHours]
  rw [find?_map_const _ _ _ _ hc, fetchProjectAnalyticsCore_any_id]

/-- Claim C10: each Project-report row's taskCount, completedTasks and
estimatedHours come from the full task table filtered only by project id:
for the same projects and tasks tables, any two runs with different
work-log sets (different windows) and different sort keys agree on these
three fields for every project id, and their common value is the one
computed from the task table alone. -/
theorem c10_project_static_fields_window_independent (ps : List Project)
    (allTasks : List Task) (logs1 logs2 : List WorkLog) (sb1 sb2 : String) (pid : String) :
    ((fetchProjectAnalyticsCore ps logs1 allTasks sb1).find?
        (fun r => decide (r.id = pid))).map
        (fun r => (r.taskCount, r.completedTasks, r.estimatedHours))
      = ((fetchProjectAnalyticsCore ps logs2 allTasks sb2).find?
        (fun r => decide (r.id = pid))).map
        (fun r => (r.taskCount, r.completedTasks, r.estimatedHours)) ∧
    ((fetchProjectAnalyticsCore ps logs1 allTasks sb1).find?
        (fun r => decide (r.id = pid))).map
        (fun r => (r.taskCount, r.completedTasks, r.estimatedHours))
      = if ps.any (fun p => decide (p.id = pid)) = true then
          some (projectTaskCount allTasks pid, projectCompletedCount allTasks pid,
            projectEstimatedHours allTasks pid)
        else none :=
  ⟨(core_find_static ps logs1 allTasks sb1 pid).trans
      (core_find_static ps logs2 allTasks sb2 pid).symm,
    core_find_static ps logs1 allTasks sb1 pid⟩
/-- The exact actual hours accumulated in an hour-of-day bucket. -/
def wpHourActualHours (workLogs : List WorkLog) (h : ℤ) : ℚ :=
  ((workLogs.filter (fun l => decide (hourOfMs l.start_time = h))).map hoursOf).sum

/-- The exact estimate sum accumulated in an hour-of-day bucket. -/
def wpHourEstimatedHours (workLogs : List WorkLog) (h : ℤ) : ℚ :=
  ((workLogs.filter (fun l => decide (hourOfMs l.start_time = h))).map estContrib).sum

/-- The exact actual hours the User report accumulates for one
(user, project) pair: the summed durations of the logs whose truthy user id
and truthy project id are that pair. -/
def uaUserProjectHours (workLogs : List WorkLog) (uid pid : String) : ℚ :=
  ((workLogs.filter (fun l => decide (truthyStr l.user_id = some uid)
    && decide (truthyStr l.project_id = some pid))).map hoursOf).sum

/-- The exact estimate sum the User report accumulates for one
(user, project) pair: the joined task estimate added once per interval,
skipped when null or 0 by the truthiness guard. -/
def uaUserProjectEstimatedHours (workLogs : List WorkLog) (uid pid : String) : ℚ :=
  ((workLogs.filter (fun l => decide (truthyStr l.user_id = some uid)
    && decide (truthyStr l.project_id = some pid))).map estContrib).sum

theorem wpHourlyMap_of_mem {workLogs : List WorkLog} {h : ℤ} {v : WHourAcc}
    (hmem : (h, v) ∈ (wpLogState workLogs).hourlyMap) :
    v.actualHours = wpHourActualHours workLogs h ∧
    v.estimatedHours = wpHourEstimatedHours workLogs h := by
  rw [wpLogState_hourlyMap] at hmem
  constructor
  · have hx := projAt_of_mem_bucketFold (fun _ : WorkLog => true)
      (fun log => hourOfMs log.start_time) (fun _ => wpHourAcc0) wpHourlyUpd
      WHourAcc.actualHours hoursOf (fun l v _ => wpHourlyUpd_actualHours l v)
      (fun _ _ => rfl) workLogs hmem
    simpa [wpHourActualHours] using hx
  · have hx := projAt_of_mem_bucketFold (fun _ : WorkLog => true)
      (fun log => hourOfMs log.start_time) (fun _ => wpHourAcc0) wpHourlyUpd
      WHourAcc.estimatedHours estContrib (fun l v _ => wpHourlyUpd_estimatedHours l v)
      (fun _ _ => rfl) workLogs hmem
    simpa [wpHourEstimatedHours] using hx

theorem paMetricsFor_userBreakdown_mem (allTasks : List Task) (workLogs : List WorkLog)
    (um : List (String × List (String × PUAcc))) (tm : List (String × PTAcc))
    (k : String) (pd : ProjectData) :
    ∀ u ∈ (paMetricsFor allTasks workLogs um tm k pd).userBreakdown,
      u.efficiency
        = jsRound2 (if 0 < u.tasks then ((u.completedTasks : ℚ) / u.tasks) * 100 else 0) := by
  intro u hu
  have hu' := mem_jsSortBy.mp hu
  obtain ⟨p, hp, rfl⟩ := List.mem_map.mp hu'
  rfl

theorem paMetricsFor_taskBreakdown_mem (allTasks : List Task) (workLogs : List WorkLog)
    (um : List (String × List (String × PUAcc))) (tm : List (String × PTAcc))
    (k : String) (pd : ProjectData) :
    ∀ t ∈ (paMetricsFor allTasks workLogs um tm k pd).taskBreakdown, ∃ raw : ℚ,
      t.actualHours = jsRound2 raw ∧
      t.efficiency = jsRound2 (if 0 < t.estimatedHours then (raw / t.estimatedHours) * 100 else 0) := by
  intro t ht
  have ht' := mem_jsSortBy.mp ht
  obtain ⟨q, hq, rfl⟩ := List.mem_map.mp ht'
  exact ⟨q.2.hours, rfl, rfl⟩

/-- Claim C8 (amended): the Project report's project rows and task rows,
the Work-Pattern hourly rows, the User report's efficiency and its
per-project drill-down rows all compute efficiency as
actualHours / estimatedHours × 100 with the 0-guard on the estimate: each
per-project drill-down row carries the values of the (user, project)
accumulator entry it was built from, its efficiency is the rounded
0-guarded hours ratio of that entry, and that entry's hours and
estimatedHours are exactly the duration sum and the truthy-guarded
estimate sum over the user's logs on that project.  The Project report's
per-user drill-down rows instead label a completion percentage
(per-interval completed count over distinct task count) as efficiency, and
the Work-Pattern team efficiency is the mean of the hourly efficiencies,
not a global hours ratio. -/
theorem c8_efficiency_fields_amended :
    (∀ (ps : List Project) (workLogs : List WorkLog) (allTasks : List Task) (sortBy : String),
      ∀ r ∈ fetchProjectAnalyticsCore ps workLogs allTasks sortBy,
        (r.efficiency
          = if 0 < r.estimatedHours then (r.totalHours / r.estimatedHours) * 100 else 0) ∧
        (∀ u ∈ r.userBreakdown,
          u.efficiency
            = jsRound2 (if 0 < u.tasks then ((u.completedTasks : ℚ) / u.tasks) * 100 else 0)) ∧
        (∀ t ∈ r.taskBreakdown, ∃ raw : ℚ,
          t.actualHours = jsRound2 raw ∧
          t.efficiency
            = jsRound2 (if 0 < t.estimatedHours then (raw / t.estimatedHours) * 100 else 0))) ∧
    (∀ workLogs : List WorkLog,
      ∀ hp ∈ (fetchWorkPatternDataCore workLogs).hourlyPattern,
        hp.efficiency
          = if 0 < wpHourEstimatedHours workLogs hp.hour then
              jsRound2 ((wpHourActualHours workLogs hp.hour
                / wpHourEstimatedHours workLogs hp.hour) * 100)
            else 0) ∧
    (∀ workLogs : List WorkLog,
      (fetchWorkPatternDataCore workLogs).teamMetrics.teamEfficiency
        = jsRound2 (if 0 < (fetchWorkPatternDataCore workLogs).hourlyPattern.length then
            (((fetchWorkPatternDataCore workLogs).hourlyPattern.map (·.efficiency)).sum)
              / (fetchWorkPatternDataCore workLogs).hourlyPattern.length
          else 0)) ∧
    (∀ (allTasks : List Task) (st : UALogState) (uid : String) (u : UserData),
      ((uaMetricsFor allTasks st uid u).efficiency
        = if 0 < uaTotalEstimatedHours allTasks ((alGet st.userWorkLogs uid).getD [])
          then ((uaMetricsFor allTasks st uid u).totalHours
            / uaTotalEstimatedHours allTasks ((alGet st.userWorkLogs uid).getD [])) * 100
          else 0) ∧
      (∀ pb ∈ (uaMetricsFor allTasks st uid u).projectBreakdown, ∃ acc : UProjAcc,
        (pb.projectId, acc) ∈ (alGet st.userProjectMap uid).getD [] ∧
        pb.hours = jsRound2 acc.hours ∧
        pb.tasks = acc.tasks.length ∧
        pb.completedTasks = acc.completedTasks ∧
        pb.efficiency
          = jsRound2 (if 0 < acc.estimatedHours
              then (acc.hours / acc.estimatedHours) * 100 else 0))) ∧
    (∀ (usersData : List User) (workLogs : List WorkLog) (uid pid : String),
      projAt UProjAcc.hours
          ((alGet (uaLogState usersData workLogs).userProjectMap uid).getD []) pid
        = uaUserProjectHours workLogs uid pid ∧
      projAt UProjAcc.estimatedHours
          ((alGet (uaLogState usersData workLogs).userProjectMap uid).getD []) pid
        = uaUserProjectEstimatedHours workLogs uid pid) := by
  refine ⟨?_, ?_, ?_, ?_, ?_⟩
  · intro ps workLogs allTasks sortBy r hr
    obtain ⟨v0, hget, hreq, hany⟩ := fetchProjectAnalyticsCore_row hr
    have hv0id : v0.id = r.id :=
      paLogState_projectMap_id ps workLogs (r.id, v0) (mem_of_alGet_eq_some hget)
    refine ⟨?_, ?_, ?_⟩
    · conv_lhs => rw [hreq]
      rw [hreq, paMetricsFor_efficiency, paMetricsFor_estimatedHours, paMetricsFor_totalHours,
        paMetricsFor_id, hv0id]
    · rw [hreq]
      exact paMetricsFor_userBreakdown_mem allTasks workLogs _ _ r.id v0
    · rw [hreq]
      exact paMetricsFor_taskBreakdown_mem allTasks workLogs _ _ r.id v0
  · intro workLogs hp hmem
    have hmem' := mem_jsSortBy.mp hmem
    obtain ⟨p, hp', rfl⟩ := List.mem_map.mp hmem'
    obtain ⟨hact, hest⟩ := wpHourlyMap_of_mem hp'
    show (if (0 : ℚ) < p.2.estimatedHours then
        jsRound2 ((p.2.actualHours / p.2.estimatedHours) * 100) else 0) = _
    rw [hact, hest]
  · intro workLogs
    rfl
  · intro allTasks st uid u
    constructor
    · rfl
    · intro pb hpb
      have hpb' := mem_jsSortBy.mp hpb
      obtain ⟨p, hp, rfl⟩ := List.mem_map.mp hpb'
      exact ⟨p.2, hp, rfl, rfl, rfl, rfl⟩
  · intro usersData workLogs uid pid
    constructor
    · exact uaUserProjectMap_proj UProjAcc.hours hoursOf rfl
        (fun l v => uaProjUpd_hours l v) usersData workLogs uid pid
    · exact uaUserProjectMap_proj UProjAcc.estimatedHours estContrib rfl
        (fun l v => uaProjUpd_estimatedHours l v) usersData workLogs uid pid
/-- The concrete project of the efficiency scenario. -/
def exProject : Project :=
  { id := "P1", name := "Alpha", type := "Client", status := some "In Progress",
    deadline := none }

/-- The concrete task table row: completed, 10h estimate, on P1. -/
def exTask : Task :=
  { id := "T1", project_id := "P1", name := "T", status := "Completed",
    estimate_hours := some 10, assigned_user_id := some "u1" }

/-- The single per-user drill-down row of the scenario. -/
def exURow : UserBreakdown :=
  { userId := "u1", userName := "Uma", hours := 1, tasks := 1, completedTasks := 1,
    efficiency := 100 }

/-- The single task drill-down row of the scenario. -/
def exTRow : TaskBreakdown :=
  { taskId := "T1", taskName := "T", status := "Completed", assignedUser := "u1",
    estimatedHours := 10, actualHours := 1, efficiency := 10 }

/-- The single Project-report row of the scenario: one completed task with
a 10h estimate and one 1-hour log. -/
def exRow : ProjectData :=
  { id := "P1", name := "Alpha", type := "Client", status := "In Progress",
    totalHours := 1, userCount := 1, taskCount := 1, completedTasks := 1,
    estimatedHours := 10, deadline := none, efficiency := 10,
    userBreakdown := [exURow], taskBreakdown := [exTRow] }

/-- The concrete user of the User-report drill-down scenario. -/
def exUser : User :=
  { id := "u1", name := "Uma", email := "uma@example.com", role := some "Member",
    specialization := none }

/-- The single per-project drill-down row of the User-report scenario. -/
def exPBRow : ProjectBreakdown :=
  { projectId := "P1", projectName := "Alpha", hours := 1, tasks := 1,
    completedTasks := 1, efficiency := 10 }

theorem exScenario_eval :
    fetchProjectAnalyticsCore [exProject] [exLog1] [exTask] "hours" = [exRow] := by
  simp [fetchProjectAnalyticsCore, paLogState, paLogStep, paProjectHoursStep, paUserMapStep,
    paTaskMapStep, paUserUpd, paMetricsFold, paMetricsFor, initialProjectMap, initProjectData,
    alUpd, alGet, alSet, alAdjust, exProject, exTask, exLog1, exTaskJoin, exRow, exURow,
    exTRow, truthyStr, strOr, qOr, logTaskCompleted, setAdd, hoursOf, jsRound2, jsSortBy,
    insertSorted, paLe, completionRatio, List.find?]
  norm_num

/-- Claim C8 counterexample: in the drill-down user breakdown the user has
1 actual hour against a 10h estimate, so the claimed formula gives
round2(1/10 x 100) = 10, but the emitted efficiency is 100 (the completion
percentage: 1 completed interval over 1 distinct task). -/
theorem c8_user_breakdown_efficiency_counterexample :
    ((fetchProjectAnalyticsCore [exProject] [exLog1] [exTask] "hours").map
      (fun r => r.userBreakdown.map (·.efficiency))) = [[100]] ∧
    jsRound2 ((1 : ℚ) / 10 * 100) = 10 ∧
    ((100 : ℚ)) ≠ jsRound2 ((1 : ℚ) / 10 * 100) := by
  refine ⟨?_, ?_, ?_⟩
  · rw [exScenario_eval]
    simp [exRow, exURow]
  · norm_num [jsRound2]
  · norm_num [jsRound2]

theorem c8_efficiency_fields_amended_witness :
    exRow ∈ fetchProjectAnalyticsCore [exProject] [exLog1] [exTask] "hours" ∧
    (exRow.efficiency
      = if 0 < exRow.estimatedHours then (exRow.totalHours / exRow.estimatedHours) * 100 else 0) ∧
    exURow ∈ exRow.userBreakdown ∧
    (exURow.efficiency
      = jsRound2 (if 0 < exURow.tasks then ((exURow.completedTasks : ℚ) / exURow.tasks) * 100
        else 0)) ∧
    exPBRow ∈ (uaMetricsFor [exTask] (uaLogState [exUser] [exLog1]) "u1"
      (initUserData exUser)).projectBreakdown ∧
    (∃ acc : UProjAcc,
      (exPBRow.projectId, acc)
          ∈ (alGet (uaLogState [exUser] [exLog1]).userProjectMap "u1").getD [] ∧
      exPBRow.hours = jsRound2 acc.hours ∧
      exPBRow.tasks = acc.tasks.length ∧
      exPBRow.completedTasks = acc.completedTasks ∧
      exPBRow.efficiency
        = jsRound2 (if 0 < acc.estimatedHours
            then (acc.hours / acc.estimatedHours) * 100 else 0)) := by
  have hmem : exRow ∈ fetchProjectAnalyticsCore [exProject] [exLog1] [exTask] "hours" := by
    rw [exScenario_eval]
    exact List.mem_singleton.mpr rfl
  have h := (c8_efficiency_fields_amended.1 [exProject] [exLog1] [exTask] "hours") exRow hmem
  have humem : exURow ∈ exRow.userBreakdown := by
    simp [exRow]
  have hpbmem : exPBRow ∈ (uaMetricsFor [exTask] (uaLogState [exUser] [exLog1]) "u1"
      (initUserData exUser)).projectBreakdown := by
    simp [uaMetricsFor, uaLogState, uaLogStep, uaWorkLogsStep, uaTotalHoursStep,
      uaDailyMapStep, uaProjectMapStep, uaHourlyMapStep, uaDayUpd, uaProjUpd, uProjAcc0,
      bucketStep, initialUserMap, initUserData, alUpd, alAdjust, alGet, alSet, truthyStr,
      strOr, addTruthy, logTaskCompleted, setAdd, hoursOf, dayOfMs, hourOfMs, jsRound2,
      jsSortBy, insertSorted, exLog1, exTaskJoin, exUser, exPBRow, List.find?]
    norm_num
  have hpb := (c8_efficiency_fields_amended.2.2.2.1 [exTask] (uaLogState [exUser] [exLog1])
    "u1" (initUserData exUser)).2 exPBRow hpbmem
  exact ⟨hmem, h.1, humem, h.2.1 exURow humem, hpbmem, hpb⟩

end TeamForge
